import Mathlib

/-!
Verification development for the dbt-conceptual repository.

The repository reconciles a hand-authored conceptual model (domains,
concepts, relationships declared in YAML) with discovered dbt models,
derives status fields, fabricates ghost concepts for dangling references,
runs a rule-based validator and diffs two snapshots of the state.

This file is a shallow embedding of the state model
(src/dbt_conceptual/state.py), the parser and state builder
(src/dbt_conceptual/parser.py), the rule-based validator
(src/dbt_conceptual/validator.py, src/dbt_conceptual/config.py) and the
git snapshot loader (src/dbt_conceptual/git.py), together with theorems
about the testable properties of the spec.

Notes on the embedding:

- Python dicts are embedded as association lists of key/value pairs in
  insertion order; dict assignment replaces the value in place for an
  existing key and appends otherwise, and iteration follows list order,
  matching CPython semantics.
- Python truthiness on optional strings (None and the empty string are
  falsy) is embedded as optFalsy; truthiness on lists is List.isEmpty.
- The repository holds two generations of the state model: state.py is
  the flat v1.0 model while parser.py and git.py still construct the
  older layered fields (silver_models, gold_models, replaced_by,
  realized_by, domains, custom_name, groups, layer).  The structures
  below are the union of the two field sets so that every assignment
  performed by the sources has a place; each field is annotated with the
  file it comes from.
- External I/O (reading YAML files, scanning the dbt project, running
  git) is out of scope; functions take the already-materialized
  document, model records or subprocess outcomes as arguments.
-/

namespace DbtConceptual

/-- Association list with string keys, embedding a Python dict. -/
abbrev AList (α : Type) := List (String × α)

/-- Lookup of a key, returning the first (and in a dict, only) binding. -/
def alookup {α : Type} : AList α → String → Option α
  | [], _ => none
  | (k, v) :: rest, key => if k = key then some v else alookup rest key

/-- Membership test for a key, embedding the Python `in` operator on dicts. -/
def acontains {α : Type} (m : AList α) (k : String) : Bool :=
  (alookup m k).isSome

/-- Dict assignment: replace the value in place if the key exists, append otherwise. -/
def aset {α : Type} : AList α → String → α → AList α
  | [], key, v => [(key, v)]
  | (k, w) :: rest, key, v =>
      if k = key then (key, v) :: rest else (k, w) :: aset rest key v

/-- Keys of the dict in insertion order. -/
def akeys {α : Type} (m : AList α) : List String := m.map Prod.fst

/-! State model, from src/dbt_conceptual/state.py. -/

/-- Message emitted by the sync pass (state.py, class Message).
    severity ranges over the Python literal type error / warning / info. -/
structure Message where
  id : String
  severity : String
  text : String
  element_type : Option String := none
  element_id : Option String := none
deriving DecidableEq, Repr

/-- ValidationState returned by validate_and_sync (state.py). -/
structure ValidationState where
  messages : List Message := []
  error_count : Nat := 0
  warning_count : Nat := 0
  info_count : Nat := 0
deriving DecidableEq, Repr

/-- ConceptState (state.py) unioned with the layered fields that the older
    parser.py and git.py still assign (silver_models, gold_models,
    replaced_by).  validation_status ranges over valid / warning / error. -/
structure ConceptState where
  name : String
  domain : Option String := none
  owner : Option String := none
  definition : Option String := none
  color : Option String := none
  models : List String := []
  silver_models : List String := []
  gold_models : List String := []
  replaced_by : Option String := none
  is_ghost : Bool := false
  validation_status : String := "valid"
  validation_messages : List String := []
deriving DecidableEq, Repr

/-- Python truthiness for an optional string: None and the empty string are falsy. -/
def optFalsy : Option String → Bool
  | none => true
  | some s => s = ""

/-- Derived concept status (state.py, ConceptState.status): the source tests
    `if not self.domain` and `if not self.models` with Python truthiness. -/
def ConceptState.status (c : ConceptState) : String :=
  if optFalsy c.domain then "stub"
  else if c.models.isEmpty then "draft"
  else "complete"

/-- RelationshipState (state.py) unioned with the layered fields the older
    parser.py and git.py assign (domains, custom_name, realized_by).
    In state.py the cardinality field is typed str with default "1:N", but
    both parser.py and git.py pass the raw optional declared value through,
    so the embedding uses an optional string with that default. -/
structure RelationshipState where
  verb : String
  from_concept : String
  to_concept : String
  cardinality : Option String := some "1:N"
  definition : Option String := none
  owner : Option String := none
  domains : List String := []
  custom_name : Option String := none
  realized_by : List String := []
  validation_status : String := "valid"
  validation_messages : List String := []
deriving DecidableEq, Repr

/-- Derived relationship display name (state.py, RelationshipState.name). -/
def RelationshipState.relName (r : RelationshipState) : String :=
  r.from_concept ++ ":" ++ r.verb ++ ":" ++ r.to_concept

/-- Derived relationship status (state.py, RelationshipState.get_status):
    stub when an endpoint is missing from the concept map, is a ghost, or has
    derived status stub; complete otherwise.  Recomputed from the concept map
    passed at each call. -/
def RelationshipState.get_status (r : RelationshipState)
    (concepts : AList ConceptState) : String :=
  match alookup concepts r.from_concept with
  | none => "stub"
  | some fc =>
      if fc.is_ghost = true ∨ fc.status = "stub" then "stub"
      else
        match alookup concepts r.to_concept with
        | none => "stub"
        | some tc =>
            if tc.is_ghost = true ∨ tc.status = "stub" then "stub"
            else "complete"

/-- DomainState (state.py). -/
structure DomainState where
  name : String
  display_name : String
  color : Option String := none
  owner : Option String := none
deriving DecidableEq, Repr

/-- ModelInfo (state.py) unioned with the layered fields parser.py assigns
    (realizes, layer). -/
structure ModelInfo where
  name : String
  concept : Option String := none
  realizes : List String := []
  domain_tags : List String := []
  owner_tag : Option String := none
  layer : String := ""
  path : Option String := none
deriving DecidableEq, Repr

/-- OrphanModel (state.py) unioned with the layer field parser.py assigns. -/
structure OrphanModel where
  name : String
  description : Option String := none
  domain : Option String := none
  layer : String := ""
  path : Option String := none
deriving DecidableEq, Repr

/-- ProjectState (state.py) unioned with the groups map parser.py uses. -/
structure ProjectState where
  concepts : AList ConceptState := []
  relationships : AList RelationshipState := []
  domains : AList DomainState := []
  orphan_models : List OrphanModel := []
  models : AList ModelInfo := []
  metadata : AList String := []
  groups : AList (List String) := []
deriving DecidableEq, Repr

/-! Declared conceptual document, the shape produced by the external YAML
    parser and consumed by ConceptualModelParser.parse (parser.py) and by
    the git snapshot loader (git.py).  Optional fields conflate an absent
    key with an explicit YAML null, as both make dict.get return None. -/

/-- Declared domain entry of the conceptual document. -/
structure DomainDoc where
  name : Option String := none
  color : Option String := none
  owner : Option String := none
deriving DecidableEq, Repr

/-- Declared concept entry of the conceptual document. -/
structure ConceptDoc where
  name : Option String := none
  domain : Option String := none
  owner : Option String := none
  definition : Option String := none
  color : Option String := none
  replaced_by : Option String := none
deriving DecidableEq, Repr

/-- Value held under the domains key of a declared relationship, which the
    source inspects with isinstance for str versus list. -/
inductive DomainsVal where
  | str (s : String)
  | list (l : List String)
deriving DecidableEq, Repr

/-- Declared relationship entry of the conceptual document.  The from and to
    keys are mandatory in parser.py (subscript access). -/
structure RelDoc where
  verb : Option String := none
  name : Option String := none
  from_concept : String
  to_concept : String
  cardinality : Option String := none
  definition : Option String := none
  domains_raw : Option DomainsVal := none
  owner : Option String := none
  custom_name : Option String := none
deriving DecidableEq, Repr

/-- Declared conceptual document (conceptual.yml after YAML parsing). -/
structure ConceptualDoc where
  metadata : AList String := []
  domains : AList DomainDoc := []
  concepts : AList ConceptDoc := []
  relationships : List RelDoc := []
  relationship_groups : AList (List String) := []
deriving DecidableEq, Repr

/-- Normalization of the domains value of a declared relationship
    (parser.py lines 91-97): a truthy string becomes a one-element list,
    a list is kept, anything else becomes the empty list. -/
def parseRelDomains : Option DomainsVal → List String
  | some (.str s) => if s = "" then [] else [s]
  | some (.list l) => l
  | none => []

/-- Embedding of parsing one declared relationship into the relationship map
    (parser.py lines 79-110): the verb falls back to the name key and then to
    relates_to, the map key is from:verb:to, and the declared cardinality is
    passed through verbatim. -/
def parseRelStep (rels : AList RelationshipState) (rel : RelDoc) :
    AList RelationshipState :=
  let verb := rel.verb.getD (rel.name.getD "relates_to")
  let rel_id := rel.from_concept ++ ":" ++ verb ++ ":" ++ rel.to_concept
  aset rels rel_id
    { verb := verb
      from_concept := rel.from_concept
      to_concept := rel.to_concept
      cardinality := rel.cardinality
      definition := rel.definition
      domains := parseRelDomains rel.domains_raw
      owner := rel.owner
      custom_name := rel.custom_name }

/-- Embedding of ConceptualModelParser.parse (parser.py lines 32-117) on an
    already-loaded document; the file-existence and YAML-loading steps are
    external I/O and out of scope. -/
def parse (doc : ConceptualDoc) : ProjectState :=
  { metadata := doc.metadata
    domains := doc.domains.map (fun (domain_id, d) =>
      (domain_id,
        { name := domain_id
          display_name := d.name.getD domain_id
          color := d.color
          owner := d.owner }))
    concepts := doc.concepts.map (fun (concept_id, c) =>
      (concept_id,
        { name := c.name.getD concept_id
          domain := c.domain
          owner := c.owner
          definition := c.definition
          color := c.color
          replaced_by := c.replaced_by }))
    relationships := doc.relationships.foldl parseRelStep []
    groups := doc.relationship_groups }

/-! State builder, from src/dbt_conceptual/parser.py (class StateBuilder).
    The discovered model records come from the external scanner; each record
    carries a name, a layer, meta keys and tags. -/

/-- Value held under a databricks_tags key, string or list of strings. -/
inductive TagVal where
  | str (s : String)
  | list (l : List String)
deriving DecidableEq, Repr

/-- Discovered dbt model record, the external scanner output shape consumed
    by StateBuilder.build. -/
structure ModelDoc where
  name : String
  layer : String
  meta_concept : Option String := none
  meta_realizes : Option (List String) := none
  meta_domain : Option String := none
  description : Option String := none
  path : Option String := none
  tags : List String := []
  databricks_domain : Option TagVal := none
  databricks_owner : Option String := none
deriving DecidableEq, Repr

/-- Embedding of StateBuilder._expand_realizes (parser.py lines 133-159):
    items with a minus sign become exclusions, group names expand to their
    members, and exclusions are filtered from the result. -/
def expandRealizes (realizes : List String) (state : ProjectState) :
    List String :=
  let step := fun (acc : List String × List String) (item : String) =>
    if item.startsWith "-" then (acc.1, acc.2 ++ [item.drop 1])
    else
      match alookup state.groups item with
      | some members => (acc.1 ++ members, acc.2)
      | none => (acc.1 ++ [item], acc.2)
  let acc := realizes.foldl step ([], [])
  acc.1.filter (fun rel => ¬ acc.2.contains rel)

/-- Extraction of domain and owner tags from flat prefix-style tags
    (parser.py lines 230-236), folding left across the tag list. -/
def extractFlatTags (tags : List String) : List String × Option String :=
  tags.foldl
    (fun (acc : List String × Option String) tag =>
      if tag.startsWith "domain:" then (acc.1 ++ [tag.drop 7], acc.2)
      else if tag.startsWith "owner:" then (acc.1, some (tag.drop 6))
      else acc)
    ([], none)

/-- Extraction of domain and owner tags from the databricks tag map
    (parser.py lines 239-247): a list value extends the domain tags even when
    empty, a truthy string value appends, the owner value overrides. -/
def extractDatabricksTags (start : List String × Option String)
    (ddomain : Option TagVal) (downer : Option String) :
    List String × Option String :=
  let afterDomain :=
    match ddomain with
    | some (.list l) => (start.1 ++ l, start.2)
    | some (.str s) => if s = "" then start else (start.1 ++ [s], start.2)
    | none => start
  match downer with
  | some o => (afterDomain.1, some o)
  | none => afterDomain

/-- Concept-linkage step of the model loop (parser.py lines 179-188): a
    record whose meta concept resolves to a known concept key appends its
    name to the silver or gold list of that concept per its layer, unless
    already present; any other layer, an unknown key or an absent meta
    concept leave the state untouched. -/
def linkStep (state : ProjectState) (model : ModelDoc) : ProjectState :=
  match model.meta_concept with
  | some concept_id =>
      match alookup state.concepts concept_id with
      | some concept =>
          if model.layer = "silver" ∧ ¬ concept.silver_models.contains model.name then
            let c := { concept with silver_models := concept.silver_models ++ [model.name] }
            { state with concepts := aset state.concepts concept_id c }
          else if model.layer = "gold" ∧ ¬ concept.gold_models.contains model.name then
            let c := { concept with gold_models := concept.gold_models ++ [model.name] }
            { state with concepts := aset state.concepts concept_id c }
          else state
      | none => state
  | none => state

/-- Body of the realization loop (parser.py lines 200-204): append the model
    name to realized_by of a known relationship unless already present. -/
def realizeOne (name : String) (st : ProjectState) (rel_id : String) :
    ProjectState :=
  match alookup st.relationships rel_id with
  | some rel =>
      if ¬ rel.realized_by.contains name then
        let r := { rel with realized_by := rel.realized_by ++ [name] }
        { st with relationships := aset st.relationships rel_id r }
      else st
  | none => st

/-- Relationship-realization step of the model loop (parser.py lines
    191-204): the expanded realizes list is folded through realizeOne. -/
def realizeStep (state : ProjectState) (model : ModelDoc) : ProjectState :=
  match model.meta_realizes with
  | some realizes_list =>
      (expandRealizes realizes_list state).foldl (realizeOne model.name) state
  | none => state

/-- Orphan-model record derived from a discovered record
    (parser.py lines 209-215). -/
def orphanOf (model : ModelDoc) : OrphanModel :=
  { name := model.name
    description := model.description
    domain := model.meta_domain
    layer := model.layer
    path := model.path }

/-- Orphan gate of the model loop (parser.py lines 207-208): both meta keys
    absent and a silver or gold layer. -/
def isOrphanRecord (model : ModelDoc) : Bool :=
  model.meta_concept.isNone && model.meta_realizes.isNone &&
    (model.layer == "silver" || model.layer == "gold")

/-- Orphan-tracking step of the model loop (parser.py lines 206-216). -/
def orphanStep (state : ProjectState) (model : ModelDoc) : ProjectState :=
  if isOrphanRecord model then
    { state with orphan_models := state.orphan_models ++ [orphanOf model] }
  else state

/-- ModelInfo construction step of the model loop (parser.py lines 218-257),
    run for silver and gold layer records. -/
def modelInfoStep (state : ProjectState) (model : ModelDoc) : ProjectState :=
  if model.layer = "silver" ∨ model.layer = "gold" then
    let flat := extractFlatTags model.tags
    let tagsOut := extractDatabricksTags flat model.databricks_domain model.databricks_owner
    let info : ModelInfo :=
      { name := model.name
        concept := model.meta_concept
        realizes := (model.meta_realizes.getD [])
        domain_tags := tagsOut.1
        owner_tag := tagsOut.2
        layer := model.layer
        path := model.path }
    { state with models := aset state.models model.name info }
  else state

/-- Embedding of one iteration of the model loop of StateBuilder.build
    (parser.py lines 174-257), the four blocks in source order. -/
def processModel (state : ProjectState) (model : ModelDoc) : ProjectState :=
  modelInfoStep (orphanStep (realizeStep (linkStep state model) model) model) model

/-- Embedding of StateBuilder.build (parser.py lines 161-262) on an
    already-parsed document and scanner output: processes every model record
    in order.  The trailing lineage-inference step reads target/manifest.json
    and returns immediately when no manifest exists; the embedding covers
    that manifest-free path. -/
def build (doc : ConceptualDoc) (models : List ModelDoc) : ProjectState :=
  models.foldl processModel (parse doc)

/-! Validation and sync engine, StateBuilder.validate_and_sync
    (parser.py lines 434-640).  The embedding threads the message counter of
    the make_msg closure and the in-place mutations of the concept and
    relationship maps explicitly, pass by pass, in source order.
    Quotation marks inside the source message texts are elided. -/

/-- Ghost concept synthesized for a missing endpoint (parser.py, ghost
    construction inside validate_and_sync step 1). -/
def ghostConcept (key : String) : ConceptState :=
  { name := key
    domain := none
    is_ghost := true
    validation_status := "error"
    validation_messages := ["Referenced but not defined"] }

/-- Embedding of the make_msg closure (parser.py lines 453-467); n is the
    counter value after its increment. -/
def mkMsg (n : Nat) (severity text : String)
    (element_type element_id : Option String) : Message :=
  { id := "msg-" ++ toString n
    severity := severity
    text := text
    element_type := element_type
    element_id := element_id }

/-- Result of processing one relationship in the ghost-creation step. -/
structure GhostStep where
  concepts : AList ConceptState
  rel : RelationshipState
  msgs : List Message
  counter : Nat

/-- One iteration of the ghost-creation loop (parser.py lines 470-536).
    Both missing flags are computed against the concept map as it stood at
    the top of the iteration, before any ghost insertion, exactly as the
    source does. -/
def processRelGhost (concepts : AList ConceptState) (counter : Nat)
    (rel_id : String) (rel : RelationshipState) : GhostStep :=
  let from_missing := ¬ acontains concepts rel.from_concept
  let to_missing := ¬ acontains concepts rel.to_concept
  let s1 : GhostStep :=
    if from_missing then
      { concepts := aset concepts rel.from_concept (ghostConcept rel.from_concept)
        rel := { rel with
          validation_status := "error"
          validation_messages := rel.validation_messages ++
            ["Source concept " ++ rel.from_concept ++ " not defined"] }
        msgs :=
          [mkMsg (counter + 1) "error"
            ("Relationship " ++ rel_id ++ " references non-existent concept " ++
              rel.from_concept) (some "relationship") (some rel_id),
           mkMsg (counter + 2) "warning"
            ("Stub created for concept " ++ rel.from_concept)
            (some "concept") (some rel.from_concept)]
        counter := counter + 2 }
    else
      { concepts := concepts, rel := rel, msgs := [], counter := counter }
  if to_missing then
    { concepts := aset s1.concepts rel.to_concept (ghostConcept rel.to_concept)
      rel := { s1.rel with
        validation_status := "error"
        validation_messages := s1.rel.validation_messages ++
          ["Target concept " ++ rel.to_concept ++ " not defined"] }
      msgs := s1.msgs ++
        [mkMsg (s1.counter + 1) "error"
          ("Relationship " ++ rel_id ++ " references non-existent concept " ++
            rel.to_concept) (some "relationship") (some rel_id),
         mkMsg (s1.counter + 2) "warning"
          ("Stub created for concept " ++ rel.to_concept)
          (some "concept") (some rel.to_concept)]
      counter := s1.counter + 2 }
  else s1

/-- Result of the whole ghost-creation step. -/
structure GhostPassResult where
  concepts : AList ConceptState
  rels : AList RelationshipState
  msgs : List Message
  counter : Nat

/-- Ghost-creation step over the relationship map in iteration order
    (parser.py lines 470-536). -/
def ghostPass (concepts : AList ConceptState) (counter : Nat) :
    AList RelationshipState → GhostPassResult
  | [] => { concepts := concepts, rels := [], msgs := [], counter := counter }
  | (rel_id, rel) :: rest =>
      let step := processRelGhost concepts counter rel_id rel
      let restRes := ghostPass step.concepts step.counter rest
      { concepts := restRes.concepts
        rels := (rel_id, step.rel) :: restRes.rels
        msgs := step.msgs ++ restRes.msgs
        counter := restRes.counter }

/-- Concept map after one ghost-creation iteration: a ghost for each of the
    two endpoints that the iteration found missing, both checks reading the
    map as of the top of the iteration. -/
def ghostThread (concepts : AList ConceptState) (rel : RelationshipState) :
    AList ConceptState :=
  let c1 := if ¬ acontains concepts rel.from_concept then
      aset concepts rel.from_concept (ghostConcept rel.from_concept)
    else concepts
  if ¬ acontains concepts rel.to_concept then
    aset c1 rel.to_concept (ghostConcept rel.to_concept)
  else c1

/-- Missing-endpoint slots of the ghost-creation step: the pairs of
    relationship id and endpoint key for which the step synthesizes a ghost
    and emits one error plus one warning, with the concept map threaded just
    as the pass threads it. -/
def ghostSlots (concepts : AList ConceptState) :
    AList RelationshipState → List (String × String)
  | [] => []
  | (rel_id, rel) :: rest =>
      ((if ¬ acontains concepts rel.from_concept
          then [(rel_id, rel.from_concept)] else []) ++
       (if ¬ acontains concepts rel.to_concept
          then [(rel_id, rel.to_concept)] else [])) ++
      ghostSlots (ghostThread concepts rel) rest

/-- Result of a pass that rewrites the concept map and emits messages. -/
structure ConceptPassResult where
  concepts : AList ConceptState
  msgs : List Message
  counter : Nat

/-- In-place error marking of a concept, embedding the mutation of the
    originally-seen duplicate (parser.py lines 556-560) including its
    membership guard. -/
def markConceptDup (m : AList ConceptState) (k : String) (dupName : String) :
    AList ConceptState :=
  match alookup m k with
  | some c =>
      aset m k { c with
        validation_status := "error"
        validation_messages := c.validation_messages ++ ["Duplicate name: " ++ dupName] }
  | none => m

/-- Duplicate-concept-name step (parser.py lines 538-562): iterates the
    concept keys in insertion order over the evolving map, skipping ghosts,
    tracking the first key seen for each display name. -/
def dupNamesPass (m : AList ConceptState) (seen : AList String) (counter : Nat) :
    List String → ConceptPassResult
  | [] => { concepts := m, msgs := [], counter := counter }
  | k :: rest =>
      match alookup m k with
      | none => dupNamesPass m seen counter rest
      | some c =>
          if c.is_ghost then dupNamesPass m seen counter rest
          else
            match alookup seen c.name with
            | some first_id =>
                let msg := mkMsg (counter + 1) "error"
                  ("Duplicate concept name " ++ c.name) (some "concept") (some k)
                let m1 := aset m k { c with
                  validation_status := "error"
                  validation_messages := c.validation_messages ++
                    ["Duplicate name: " ++ c.name] }
                let m2 := markConceptDup m1 first_id c.name
                let res := dupNamesPass m2 seen (counter + 1) rest
                { res with msgs := msg :: res.msgs }
            | none => dupNamesPass m (aset seen c.name k) counter rest

/-- Result of a pass that rewrites the relationship map and emits messages. -/
structure RelPassResult where
  rels : AList RelationshipState
  msgs : List Message
  counter : Nat

/-- Duplicate-relationship step (parser.py lines 564-580): recomputes the
    from:verb:to key of every relationship and flags entries whose key was
    already seen under a different map id. -/
def dupRelsPass (rels : AList RelationshipState) (seen : AList String)
    (counter : Nat) : List String → RelPassResult
  | [] => { rels := rels, msgs := [], counter := counter }
  | rel_id :: rest =>
      match alookup rels rel_id with
      | none => dupRelsPass rels seen counter rest
      | some rel =>
          let key := rel.from_concept ++ ":" ++ rel.verb ++ ":" ++ rel.to_concept
          match alookup seen key with
          | some first_id =>
              if first_id ≠ rel_id then
                let msg := mkMsg (counter + 1) "error"
                  ("Duplicate relationship " ++ rel_id)
                  (some "relationship") (some rel_id)
                let rels1 := aset rels rel_id { rel with
                  validation_status := "error"
                  validation_messages := rel.validation_messages ++
                    ["Duplicate relationship"] }
                let res := dupRelsPass rels1 seen (counter + 1) rest
                { res with msgs := msg :: res.msgs }
              else dupRelsPass rels (aset seen key rel_id) counter rest
          | none => dupRelsPass rels (aset seen key rel_id) counter rest

/-- Model names referenced by a concept but absent from the project
    (parser.py lines 587-589, over silver and gold lists). -/
def missingModelsForConcept (c : ConceptState) (available : List String) :
    List String :=
  (c.silver_models ++ c.gold_models).filter (fun mn => ¬ available.contains mn)

/-- Warning messages for the missing models of one concept, with the counter
    advancing per message (parser.py lines 590-597). -/
def missingModelMsgs (k : String) (counter : Nat) : List String → List Message
  | [] => []
  | mn :: rest =>
      mkMsg (counter + 1) "warning" ("Model " ++ mn ++ " not found in project")
        (some "concept") (some k) :: missingModelMsgs k (counter + 1) rest

/-- Referenced-model-availability step (parser.py lines 582-602): for every
    non-ghost concept, each linked model name absent from the project yields
    one warning, downgrades a valid status to warning and appends a
    validation note. -/
def modelsCheckPass (m : AList ConceptState) (available : List String)
    (counter : Nat) : List String → ConceptPassResult
  | [] => { concepts := m, msgs := [], counter := counter }
  | k :: rest =>
      match alookup m k with
      | none => modelsCheckPass m available counter rest
      | some c =>
          if c.is_ghost then modelsCheckPass m available counter rest
          else
            let missing := missingModelsForConcept c available
            let msgs := missingModelMsgs k counter missing
            let c1 := { c with
              validation_status :=
                if ¬ missing.isEmpty ∧ c.validation_status = "valid" then "warning"
                else c.validation_status
              validation_messages := c.validation_messages ++
                missing.map (fun mn => "Model " ++ mn ++ " not found") }
            let res := modelsCheckPass (aset m k c1) available
              (counter + missing.length) rest
            { res with msgs := msgs ++ res.msgs }

/-- Number of non-ghost concepts with a truthy domain equal to d
    (parser.py lines 604-609). -/
def domainConceptCount (concepts : AList ConceptState) (d : String) : Nat :=
  concepts.countP (fun kv =>
    !(optFalsy kv.2.domain) && !kv.2.is_ghost && kv.2.domain == some d)

/-- Empty-domain warnings in domain-map order (parser.py lines 610-619). -/
def emptyDomainMsgs (concepts : AList ConceptState) (counter : Nat) :
    List String → List Message × Nat
  | [] => ([], counter)
  | d :: rest =>
      if domainConceptCount concepts d = 0 then
        let msg := mkMsg (counter + 1) "warning"
          ("Domain " ++ d ++ " has no concepts") (some "domain") (some d)
        let res := emptyDomainMsgs concepts (counter + 1) rest
        (msg :: res.1, res.2)
      else emptyDomainMsgs concepts counter rest

/-- Tally of messages with a given severity (parser.py lines 631-633). -/
def severityCount (msgs : List Message) (sev : String) : Nat :=
  msgs.countP (fun m => m.severity == sev)

/-- Embedding of StateBuilder.validate_and_sync (parser.py lines 434-640).
    The state is mutated in place by the source; the embedding returns the
    rewritten state next to the ValidationState.  The available model names
    come from the external scanner (parser.py, _get_available_models). -/
def validateAndSync (state : ProjectState) (available_models : List String) :
    ProjectState × ValidationState :=
  let g := ghostPass state.concepts 0 state.relationships
  let d := dupNamesPass g.concepts [] g.counter (akeys g.concepts)
  let r := dupRelsPass g.rels [] d.counter (akeys g.rels)
  let mc := modelsCheckPass d.concepts available_models r.counter (akeys d.concepts)
  let ed := emptyDomainMsgs mc.concepts mc.counter (akeys state.domains)
  let realCount := mc.concepts.countP (fun kv => !kv.2.is_ghost)
  let infoMsg := mkMsg (ed.2 + 1) "info"
    ("Synced " ++ toString realCount ++ " concepts from conceptual.yml")
    none none
  let msgs := g.msgs ++ d.msgs ++ r.msgs ++ mc.msgs ++ ed.1 ++ [infoMsg]
  ( { state with concepts := mc.concepts, relationships := r.rels },
    { messages := msgs
      error_count := severityCount msgs "error"
      warning_count := severityCount msgs "warning"
      info_count := severityCount msgs "info" } )

/-! Rule-based validator, from src/dbt_conceptual/validator.py and the
    validation configuration of src/dbt_conceptual/config.py. -/

/-- Configurable rule severity (config.py, RuleSeverity). -/
inductive RuleSeverity where
  | error
  | warn
  | ignore
deriving DecidableEq, Repr

/-- Issue severity (validator.py, Severity). -/
inductive Severity where
  | error
  | warning
  | info
deriving DecidableEq, Repr

/-- Embedding of _rule_to_severity (validator.py lines 28-34). -/
def ruleToSeverity : RuleSeverity → Option Severity
  | .error => some .error
  | .warn => some .warning
  | .ignore => none

/-- Modelled from the spec: per-layer override block of the validation
    configuration.  config.py under src lacks the LayerValidationConfig
    class that test_config.py imports; per the tests a layer block holds an
    optional override for each configurable rule. -/
structure LayerValidationConfig where
  orphan_models : Option RuleSeverity := none
  unimplemented_concepts : Option RuleSeverity := none
  unrealized_relationships : Option RuleSeverity := none
  missing_definitions : Option RuleSeverity := none
  domain_mismatch : Option RuleSeverity := none
deriving DecidableEq, Repr

/-- ValidationConfig (config.py lines 31-40) with the rule defaults of the
    source, extended with the gold layer block its tests exercise. -/
structure ValidationConfig where
  orphan_models : RuleSeverity := .warn
  unimplemented_concepts : RuleSeverity := .warn
  unrealized_relationships : RuleSeverity := .warn
  missing_definitions : RuleSeverity := .ignore
  domain_mismatch : RuleSeverity := .warn
  gold : LayerValidationConfig := {}
deriving DecidableEq, Repr

/-- Modelled from the spec: ValidationConfig.get_severity is called by
    validator.py and exercised by test_config.py but is absent from
    config.py under src.  Per the spec and the tests, the gold layer
    override wins when present and set, otherwise the rule default applies;
    a rule name outside the configurable five yields ignore. -/
def ValidationConfig.get_severity (cfg : ValidationConfig) (rule : String)
    (layer : Option String) : RuleSeverity :=
  let dflt : RuleSeverity :=
    match rule with
    | "orphan_models" => cfg.orphan_models
    | "unimplemented_concepts" => cfg.unimplemented_concepts
    | "unrealized_relationships" => cfg.unrealized_relationships
    | "missing_definitions" => cfg.missing_definitions
    | "domain_mismatch" => cfg.domain_mismatch
    | _ => .ignore
  match layer with
  | some "gold" =>
      (match rule with
        | "orphan_models" => cfg.gold.orphan_models
        | "unimplemented_concepts" => cfg.gold.unimplemented_concepts
        | "unrealized_relationships" => cfg.gold.unrealized_relationships
        | "missing_definitions" => cfg.gold.missing_definitions
        | "domain_mismatch" => cfg.gold.domain_mismatch
        | _ => none).getD dflt
  | _ => dflt

/-- Value held in the context map of a ValidationIssue (validator.py passes
    strings, optional strings and string lists). -/
inductive ContextVal where
  | str (s : String)
  | optStr (s : Option String)
  | strList (l : List String)
deriving DecidableEq, Repr

/-- ValidationIssue (validator.py lines 37-44). -/
structure ValidationIssue where
  severity : Severity
  code : String
  message : String
  context : AList ContextVal := []
deriving DecidableEq, Repr

/-- Embedding of Validator._validate_relationship_endpoints
    (validator.py lines 87-117). -/
def validateRelationshipEndpoints (state : ProjectState) :
    List ValidationIssue :=
  state.relationships.flatMap (fun (rel_id, rel) =>
    (if ¬ acontains state.concepts rel.from_concept then
      [{ severity := .error
         code := "E002"
         message := "Relationship " ++ rel_id ++
           " references non-existent concept " ++ rel.from_concept
         context := [("relationship", .str rel_id),
                     ("missing_concept", .str rel.from_concept)] }]
     else []) ++
    (if ¬ acontains state.concepts rel.to_concept then
      [{ severity := .error
         code := "E002"
         message := "Relationship " ++ rel_id ++
           " references non-existent concept " ++ rel.to_concept
         context := [("relationship", .str rel_id),
                     ("missing_concept", .str rel.to_concept)] }]
     else []))

/-- Embedding of Validator._validate_orphan_models
    (validator.py lines 119-139). -/
def validateOrphanModels (cfg : ValidationConfig) (state : ProjectState) :
    List ValidationIssue :=
  match ruleToSeverity (cfg.get_severity "orphan_models" (some "gold")) with
  | none => []
  | some sev =>
      state.orphan_models.map (fun o =>
        { severity := sev
          code := "W101"
          message := "Model " ++ o.name ++ " is not linked to any concept"
          context := [("model", .str o.name), ("path", .optStr o.path)] })

/-- Embedding of Validator._validate_unimplemented_concepts
    (validator.py lines 141-164). -/
def validateUnimplementedConcepts (cfg : ValidationConfig)
    (state : ProjectState) : List ValidationIssue :=
  match ruleToSeverity (cfg.get_severity "unimplemented_concepts" (some "gold")) with
  | none => []
  | some sev =>
      state.concepts.flatMap (fun (concept_id, c) =>
        if c.is_ghost then []
        else if c.models.isEmpty then
          [{ severity := sev
             code := "W102"
             message := "Concept " ++ concept_id ++ " has no implementing models"
             context := [("concept", .str concept_id), ("status", .str c.status)] }]
        else [])

/-- Embedding of Validator._validate_missing_definitions
    (validator.py lines 166-201). -/
def validateMissingDefinitions (cfg : ValidationConfig)
    (state : ProjectState) : List ValidationIssue :=
  match ruleToSeverity (cfg.get_severity "missing_definitions" (some "gold")) with
  | none => []
  | some sev =>
      state.concepts.flatMap (fun (concept_id, c) =>
        if c.status = "stub" ∨ c.is_ghost then []
        else if optFalsy c.definition then
          [{ severity := sev
             code := "W104"
             message := "Concept " ++ concept_id ++ " is missing a definition"
             context := [("concept", .str concept_id), ("status", .str c.status)] }]
        else []) ++
      state.relationships.flatMap (fun (rel_id, rel) =>
        if optFalsy rel.definition then
          [{ severity := sev
             code := "W104"
             message := "Relationship " ++ rel_id ++ " is missing a definition"
             context := [("relationship", .str rel_id)] }]
        else [])

/-- Embedding of Validator._validate_domain_references
    (validator.py lines 203-217). -/
def validateDomainReferences (state : ProjectState) : List ValidationIssue :=
  state.concepts.flatMap (fun (concept_id, c) =>
    match c.domain with
    | some s =>
        if s ≠ "" ∧ ¬ acontains state.domains s then
          [{ severity := .warning
             code := "W001"
             message := "Concept " ++ concept_id ++
               " references unknown domain " ++ s
             context := [("concept", .str concept_id), ("domain", .str s)] }]
        else []
    | none => [])

/-- First letter upper-cased and the rest lower-cased, embedding the Python
    str.capitalize used for the status label. -/
def capitalizeWord (s : String) : String :=
  match s.toList with
  | [] => s
  | ch :: rest => String.mk (ch.toUpper :: rest.map Char.toLower)

/-- Enrichment fields missing from a stub or draft concept
    (validator.py lines 231-237). -/
def conceptMissingFields (c : ConceptState) : List String :=
  (if optFalsy c.domain then ["domain"] else []) ++
  (if optFalsy c.owner then ["owner"] else []) ++
  (if optFalsy c.definition then ["definition"] else [])

/-- Embedding of Validator._check_stub_concepts (validator.py lines 219-284):
    info (or error with the no-drafts flag) for every non-ghost stub or draft
    concept with missing enrichment fields and for every stub relationship. -/
def checkStubConcepts (state : ProjectState) (no_drafts : Bool) :
    List ValidationIssue :=
  state.concepts.flatMap (fun (concept_id, c) =>
    if c.is_ghost then []
    else if c.status = "stub" ∨ c.status = "draft" then
      let missing := conceptMissingFields c
      if ¬ missing.isEmpty then
        [{ severity := if no_drafts then .error else .info
           code := if no_drafts then "E201" else "I001"
           message := capitalizeWord c.status ++ " concept " ++ concept_id ++
             " needs enrichment: missing " ++ String.intercalate ", " missing
           context := [("concept", .str concept_id),
                       ("missing", .strList missing),
                       ("status", .str c.status)] }]
      else []
    else []) ++
  state.relationships.flatMap (fun (_, rel) =>
    if rel.get_status state.concepts = "stub" then
      let missing := if optFalsy rel.definition then ["definition"] else []
      [{ severity := if no_drafts then .error else .info
         code := if no_drafts then "E202" else "I002"
         message :=
           if ¬ missing.isEmpty then
             "Stub relationship " ++ rel.relName ++
               " needs enrichment: missing " ++ String.intercalate ", " missing
           else
             "Stub relationship " ++ rel.relName ++
               " has stub/ghost endpoint concepts"
         context := [("relationship", .str rel.relName),
                     ("missing", .strList missing),
                     ("status", .str "stub")] }]
    else [])

/-- Embedding of Validator.validate (validator.py lines 63-85): runs the six
    checks in source order and concatenates their issues. -/
def validate (cfg : ValidationConfig) (state : ProjectState)
    (no_drafts : Bool) : List ValidationIssue :=
  validateRelationshipEndpoints state ++
  validateOrphanModels cfg state ++
  validateUnimplementedConcepts cfg state ++
  validateMissingDefinitions cfg state ++
  validateDomainReferences state ++
  checkStubConcepts state no_drafts

/-- Embedding of Validator.has_errors (validator.py lines 286-292). -/
def hasErrors (issues : List ValidationIssue) : Bool :=
  issues.any (fun i => i.severity == Severity.error)

/-! Git snapshot loader, from src/dbt_conceptual/git.py.  The subprocess
    invocations are external; the embedding takes their outcomes as input. -/

/-- Error kinds of git.py (classes GitNotFoundError, NotAGitRepoError and
    RefNotFoundError, all subclasses of GitError), as one inductive with one
    constructor per class carrying the data the class stores. -/
inductive GitError where
  | gitNotFound (msg : String)
  | notAGitRepo (msg : String)
  | refNotFound (ref : String) (file_path : String) (stderr : String)
deriving DecidableEq, Repr

/-- Outcome of the git rev-parse probe run with check=True: the executable
    is missing, the command exits nonzero, or it succeeds. -/
inductive RevParseOutcome where
  | fileNotFound
  | calledProcessError (returncode : Int)
  | success
deriving DecidableEq, Repr

/-- Outcome of the git show invocation; the stdout is carried already parsed
    as a conceptual document, since YAML parsing is external. -/
structure ShowOutcome where
  returncode : Int
  doc : ConceptualDoc
  stderr : String
deriving DecidableEq, Repr

/-- External git environment observed by load_state_from_git_ref. -/
structure GitEnv where
  revParse : RevParseOutcome
  showCmd : ShowOutcome
deriving DecidableEq, Repr

/-- Embedding of the base-state construction of load_state_from_git_ref
    (git.py lines 110-147): domains without owner, concepts as in the
    parser, relationships with empty-string fallbacks for verb and both
    endpoints and the raw cardinality passed through.  The domains key of a
    relationship is restricted to its well-typed list case. -/
def gitBaseState (doc : ConceptualDoc) : ProjectState :=
  { domains := doc.domains.map (fun (domain_id, d) =>
      (domain_id,
        { name := domain_id
          display_name := d.name.getD domain_id
          color := d.color }))
    concepts := doc.concepts.map (fun (concept_id, c) =>
      (concept_id,
        { name := c.name.getD concept_id
          domain := c.domain
          owner := c.owner
          definition := c.definition
          color := c.color
          replaced_by := c.replaced_by }))
    relationships := doc.relationships.foldl
      (fun rels rel =>
        let verb := rel.verb.getD ""
        let rel_key := rel.from_concept ++ ":" ++ verb ++ ":" ++ rel.to_concept
        aset rels rel_key
          { verb := verb
            from_concept := rel.from_concept
            to_concept := rel.to_concept
            cardinality := rel.cardinality
            definition := rel.definition
            domains := match rel.domains_raw with
              | some (.list l) => l
              | _ => []
            owner := rel.owner
            custom_name := rel.name })
      [] }

/-- Embedding of load_state_from_git_ref (git.py lines 53-151): the three
    failure branches in source order, then the successful parse of the shown
    file content. -/
def loadStateFromGitRef (env : GitEnv) (base_ref : String)
    (conceptual_rel_path : String) : Except GitError ProjectState :=
  match env.revParse with
  | .calledProcessError _ => .error (.notAGitRepo "Not a git repository")
  | .fileNotFound =>
      .error (.gitNotFound "git not found. This command requires git.")
  | .success =>
      if env.showCmd.returncode ≠ 0 then
        .error (.refNotFound base_ref conceptual_rel_path env.showCmd.stderr)
      else .ok (gitBaseState env.showCmd.doc)

/-! Diff engine.  The differ module (differ.py, compute_diff and
    ConceptualDiff) is imported by git.py and exercised by the tests but is
    absent from src; it is modelled from the spec below. -/

/-- Modelled from the spec: a comparable field value of the diff engine, a
    string-like value or the domains list of a relationship. -/
inductive FieldVal where
  | str (s : Option String)
  | strs (l : List String)
deriving DecidableEq, Repr

/-- Modelled from the spec: one change record of the diff engine, with key,
    change type added / removed / modified, the full old and new values, and
    for modified entries the map of differing fields to old/new pairs. -/
structure Change (α : Type) where
  key : String
  change_type : String
  old_value : Option α := none
  new_value : Option α := none
  modified_fields : AList (FieldVal × FieldVal) := []
deriving DecidableEq, Repr

/-- Modelled from the spec: comparable fields of a Domain
    (display_name, color, owner). -/
def domainFields (d : DomainState) : List (String × FieldVal) :=
  [("display_name", .str (some d.display_name)),
   ("color", .str d.color),
   ("owner", .str d.owner)]

/-- Modelled from the spec: comparable fields of a Concept
    (name, domain, owner, definition, color). -/
def conceptFields (c : ConceptState) : List (String × FieldVal) :=
  [("name", .str (some c.name)),
   ("domain", .str c.domain),
   ("owner", .str c.owner),
   ("definition", .str c.definition),
   ("color", .str c.color)]

/-- Modelled from the spec: comparable fields of a Relationship
    (cardinality, definition, owner, domains list). -/
def relationshipFields (r : RelationshipState) : List (String × FieldVal) :=
  [("cardinality", .str r.cardinality),
   ("definition", .str r.definition),
   ("owner", .str r.owner),
   ("domains", .strs r.domains)]

/-- Modelled from the spec: the map of comparable fields whose base and
    current values differ, as name to old/new pair. -/
def changedFields {α : Type} (fields : α → List (String × FieldVal))
    (base current : α) : AList (FieldVal × FieldVal) :=
  ((fields base).zip (fields current)).foldr
    (fun fp acc =>
      if fp.1.2 = fp.2.2 then acc else (fp.1.1, (fp.1.2, fp.2.2)) :: acc)
    []

/-- Modelled from the spec: structural diff of one keyed map.  Keys only in
    current are added with the full new value, keys only in base are removed
    with the full old value, keys in both yield a modified record exactly
    when some comparable field differs, and an unchanged key yields no
    record. -/
def diffMap {α : Type} (fields : α → List (String × FieldVal))
    (base current : AList α) : List (Change α) :=
  let added := (akeys current).filterMap (fun k =>
    match alookup base k, alookup current k with
    | none, some v => some { key := k, change_type := "added", new_value := some v }
    | _, _ => none)
  let removed := (akeys base).filterMap (fun k =>
    match alookup current k, alookup base k with
    | none, some v => some { key := k, change_type := "removed", old_value := some v }
    | _, _ => none)
  let modified := (akeys current).filterMap (fun k =>
    match alookup base k, alookup current k with
    | some b, some c =>
        let mf := changedFields fields b c
        if mf.isEmpty then none
        else some { key := k, change_type := "modified", old_value := some b,
                    new_value := some c, modified_fields := mf }
    | _, _ => none)
  added ++ removed ++ modified

/-- Modelled from the spec: the change set produced by the diff engine, one
    change list per entity map. -/
structure ConceptualDiff where
  domain_changes : List (Change DomainState) := []
  concept_changes : List (Change ConceptState) := []
  relationship_changes : List (Change RelationshipState) := []
deriving DecidableEq, Repr

/-- Modelled from the spec: has_changes is computed from the three change
    lists, never stored. -/
def ConceptualDiff.has_changes (d : ConceptualDiff) : Bool :=
  !(d.domain_changes.isEmpty && d.concept_changes.isEmpty &&
    d.relationship_changes.isEmpty)

/-- Modelled from the spec: compute_diff applies the structural map diff
    independently to domains, concepts and relationships. -/
def computeDiff (base current : ProjectState) : ConceptualDiff :=
  { domain_changes := diffMap domainFields base.domains current.domains
    concept_changes := diffMap conceptFields base.concepts current.concepts
    relationship_changes :=
      diffMap relationshipFields base.relationships current.relationships }

/-! Concrete inputs used by counterexamples and witnesses. -/

/-- Concept with a present but empty domain string and a linked model. -/
def emptyDomainConcept : ConceptState :=
  { name := "X", domain := some "", models := ["m"] }

/-- Relationship used to probe get_status on maps lacking its endpoints. -/
def probeRel : RelationshipState :=
  { verb := "r", from_concept := "a", to_concept := "b" }

/-- Concept map with one ghost endpoint, for the status witness. -/
def probeMap : AList ConceptState :=
  [("a", ghostConcept "a"), ("b", { name := "B", domain := some "d", models := ["m"] })]

/-- Declared document of test_relationship_cardinality_validation
    (test_parser.py lines 443-493), whose third relationship declares the
    unsupported cardinality N:M. -/
def cardinalityDoc : ConceptualDoc :=
  { concepts :=
      [("customer", { name := some "Customer" }),
       ("order", { name := some "Order" }),
       ("address", { name := some "Address" })]
    relationships :=
      [{ verb := some "places", from_concept := "customer", to_concept := "order",
         cardinality := some "1:N" },
       { verb := some "has", from_concept := "customer", to_concept := "address",
         cardinality := some "1:1" },
       { verb := some "invalid", from_concept := "order", to_concept := "address",
         cardinality := some "N:M" }] }

/-- State whose only relationship is a self-loop on an undeclared concept. -/
def selfLoopState : ProjectState :=
  { relationships := [("x:loves:x",
      { verb := "loves", from_concept := "x", to_concept := "x" })] }

/-- Scenario state of the spec: concept customer in domain party and a
    relationship to the undeclared concept order. -/
def scenarioState : ProjectState :=
  { concepts := [("customer", { name := "Customer", domain := some "party" })]
    relationships := [("customer:places:order",
      { verb := "places", from_concept := "customer", to_concept := "order" })]
    domains := [("party", { name := "party", display_name := "Party" })] }

/-- Discovered silver-layer record with neither meta key. -/
def plainSilverModel : ModelDoc := { name := "m", layer := "silver" }

/-- State holding one declared concept with no linked models. -/
def oneConceptState : ProjectState := { concepts := [("c", { name := "C" })] }

/-- Bronze-layer record linking to the declared concept c. -/
def bronzeLinkedModel : ModelDoc :=
  { name := "m1", layer := "bronze", meta_concept := some "c" }

/-- Silver-layer record with a realizes meta key and no concept link. -/
def realizesOnlyModel : ModelDoc :=
  { name := "m2", layer := "silver", meta_realizes := some [] }

/-- Silver-layer record linking to the declared concept c. -/
def silverLinkedModel : ModelDoc :=
  { name := "dim_c", layer := "silver", meta_concept := some "c" }

/-- Document declaring one concept, for witnesses over build. -/
def witnessDoc : ConceptualDoc :=
  { concepts := [("customer", { name := some "Customer" })] }

/-- State with one orphan model, for the validator witness. -/
def orphanState : ProjectState :=
  { orphan_models := [{ name := "dim_orphan" }] }

/-- Git environment where the git executable is missing. -/
def gitMissingEnv : GitEnv :=
  { revParse := .fileNotFound, showCmd := { returncode := 0, doc := {}, stderr := "" } }

/-! Theorems.  First the association-list toolbox, then one theorem per
    claim with its counterexamples and witnesses. -/

theorem alookup_aset_self {α : Type} (m : AList α) (k : String) (v : α) :
    alookup (aset m k v) k = some v := by
  induction m with
  | nil => simp [aset, alookup]
  | cons hd tl ih =>
      obtain ⟨k', v'⟩ := hd
      by_cases h : k' = k
      · simp [aset, h, alookup]
      · simp [aset, h, alookup, ih]

theorem alookup_aset_ne {α : Type} (m : AList α) (k k' : String) (v : α)
    (h : k ≠ k') : alookup (aset m k v) k' = alookup m k' := by
  induction m with
  | nil => simp [aset, alookup, h]
  | cons hd tl ih =>
      obtain ⟨k0, v0⟩ := hd
      by_cases h0 : k0 = k
      · subst h0
        simp [aset, alookup, h]
      · simp [aset, h0, alookup]
        by_cases h1 : k0 = k'
        · simp [h1]
        · simp [h1, ih]

theorem acontains_aset {α : Type} (m : AList α) (k k' : String) (v : α) :
    acontains (aset m k v) k' = (k = k' || acontains m k') := by
  by_cases h : k = k'
  · subst h
    simp [acontains, alookup_aset_self]
  · simp [acontains, alookup_aset_ne m k k' v h, h]

theorem acontains_mono_aset {α : Type} (m : AList α) (k k' : String) (v : α)
    (h : acontains m k' = true) : acontains (aset m k v) k' = true := by
  rw [acontains_aset]
  simp [h]

theorem mem_of_alookup {α : Type} (m : AList α) (k : String) (v : α)
    (h : alookup m k = some v) : (k, v) ∈ m := by
  induction m with
  | nil => simp [alookup] at h
  | cons hd tl ih =>
      obtain ⟨k0, v0⟩ := hd
      by_cases h0 : k0 = k
      · subst h0
        simp [alookup] at h
        simp [h]
      · simp [alookup, h0] at h
        simp [ih h]

theorem mem_aset {α : Type} (m : AList α) (k : String) (v : α) (p : String × α)
    (h : p ∈ aset m k v) : p = (k, v) ∨ p ∈ m := by
  induction m with
  | nil => simp [aset] at h; simp [h]
  | cons hd tl ih =>
      obtain ⟨k0, v0⟩ := hd
      by_cases h0 : k0 = k
      · subst h0
        simp [aset] at h
        rcases h with h | h
        · left; simp [h]
        · right; simp [h]
      · simp [aset, h0] at h
        rcases h with h | h
        · right; simp [h]
        · rcases ih h with h1 | h1
          · left; exact h1
          · right; simp [h1]

theorem alookup_isSome_of_mem_keys {α : Type} (m : AList α) (k : String)
    (h : k ∈ akeys m) : (alookup m k).isSome := by
  induction m with
  | nil => simp [akeys] at h
  | cons hd tl ih =>
      obtain ⟨k0, v0⟩ := hd
      by_cases h0 : k0 = k
      · simp [alookup, h0]
      · simp [akeys, h0] at h
        rcases h with h | h
        · exact absurd h.symm h0
        · simp [alookup, h0]
          exact ih (by simpa [akeys] using h)

/-- C2 counterexample: a concept with the present-but-empty domain string
    and a nonempty model list has status stub, while the claimed formula in
    terms of domain-is-None and models-emptiness predicts complete; so the
    derived status is not a function of (domain is None, models empty). -/
theorem concept_status_claim_counterexample :
    emptyDomainConcept.domain ≠ none ∧ emptyDomainConcept.models ≠ [] ∧
    emptyDomainConcept.status = "stub" := by
  refine ⟨by simp [emptyDomainConcept], by simp [emptyDomainConcept], rfl⟩

/-- C2 (amended): the derived concept status is total over stub, draft and
    complete and is fully determined by Python truthiness of the domain
    (None or the empty string) together with emptiness of the linked-model
    list: falsy domain gives stub, truthy domain with no models gives draft,
    truthy domain with models gives complete; no other attribute of the
    concept affects the result. -/
theorem concept_status_totality (c₁ c₂ : ConceptState)
    (hdom : optFalsy c₁.domain = optFalsy c₂.domain)
    (hmod : c₁.models.isEmpty = c₂.models.isEmpty) :
    (c₁.status = "stub" ∨ c₁.status = "draft" ∨ c₁.status = "complete") ∧
    c₁.status = c₂.status ∧
    (optFalsy c₁.domain = true → c₁.status = "stub") ∧
    (optFalsy c₁.domain = false → c₁.models.isEmpty = true → c₁.status = "draft") ∧
    (optFalsy c₁.domain = false → c₁.models.isEmpty = false → c₁.status = "complete") := by
  unfold ConceptState.status
  refine ⟨?_, ?_, ?_, ?_, ?_⟩
  · by_cases h1 : optFalsy c₁.domain
    · simp [h1]
    · by_cases h2 : c₁.models.isEmpty <;> simp [h1, h2]
  · rw [hdom, hmod]
  · intro h; simp [h]
  · intro h1 h2; simp [h1, h2]
  · intro h1 h2; simp [h1, h2]

/-- C2 witness: the amended theorem applied to two concrete concepts that
    agree on domain truthiness and model emptiness but nothing else. -/
theorem concept_status_totality_witness :
    ({ name := "a", domain := some "d", models := ["m"] } : ConceptState).status =
      ({ name := "b", domain := some "p", owner := some "o", models := ["n"] } :
        ConceptState).status :=
  (concept_status_totality _ _ rfl rfl).2.1

/-- C3 counterexample: over the empty concept map the relationship status is
    stub although neither endpoint key is bound to any concept at all, so the
    claimed characterization (stub iff at least one endpoint concept is a
    ghost or a stub) fails on maps with dangling endpoints. -/
theorem relationship_status_claim_counterexample :
    probeRel.get_status [] = "stub" ∧
    alookup ([] : AList ConceptState) probeRel.from_concept = none ∧
    alookup ([] : AList ConceptState) probeRel.to_concept = none :=
  ⟨rfl, rfl, rfl⟩

/-- C3 (amended): the derived relationship status is total over stub and
    complete; it is stub exactly when an endpoint key is absent from the
    concept map, bound to a ghost, or bound to a concept of derived status
    stub; and it is a function of the current lookups of the two endpoint
    keys alone, so any map agreeing on those lookups yields the same status
    with no caching lag. -/
theorem relationship_status_consistency (r : RelationshipState)
    (m : AList ConceptState) :
    (r.get_status m = "stub" ∨ r.get_status m = "complete") ∧
    (r.get_status m = "stub" ↔
      alookup m r.from_concept = none ∨ alookup m r.to_concept = none ∨
      (∃ c, alookup m r.from_concept = some c ∧
        (c.is_ghost = true ∨ c.status = "stub")) ∨
      (∃ c, alookup m r.to_concept = some c ∧
        (c.is_ghost = true ∨ c.status = "stub"))) ∧
    (∀ m' : AList ConceptState,
      alookup m' r.from_concept = alookup m r.from_concept →
      alookup m' r.to_concept = alookup m r.to_concept →
      r.get_status m' = r.get_status m) := by
  refine ⟨?_, ?_, ?_⟩
  · unfold RelationshipState.get_status
    rcases hf : alookup m r.from_concept with _ | fc
    · left; rfl
    · by_cases hg : fc.is_ghost = true ∨ fc.status = "stub"
      · simp [hg]
      · rcases ht : alookup m r.to_concept with _ | tc
        · simp [hg]
        · by_cases hg2 : tc.is_ghost = true ∨ tc.status = "stub" <;> simp [hg, hg2]
  · rcases hf : alookup m r.from_concept with _ | fc
    · have hstat : r.get_status m = "stub" := by
        unfold RelationshipState.get_status
        rw [hf]
      simp [hstat, hf]
    · by_cases hg : fc.is_ghost = true ∨ fc.status = "stub"
      · have hstat : r.get_status m = "stub" := by
          unfold RelationshipState.get_status
          rw [hf]
          simp [hg]
        rw [hstat]
        simp only [true_iff]
        exact Or.inr (Or.inr (Or.inl ⟨fc, rfl, hg⟩))
      · rcases ht : alookup m r.to_concept with _ | tc
        · have hstat : r.get_status m = "stub" := by
            unfold RelationshipState.get_status
            rw [hf]
            simp [hg]
            rw [ht]
          rw [hstat]
          simp only [true_iff]
          exact Or.inr (Or.inl trivial)
        · by_cases hg2 : tc.is_ghost = true ∨ tc.status = "stub"
          · have hstat : r.get_status m = "stub" := by
              unfold RelationshipState.get_status
              rw [hf]
              simp [hg]
              rw [ht]
              simp [hg2]
            rw [hstat]
            simp only [true_iff]
            exact Or.inr (Or.inr (Or.inr ⟨tc, rfl, hg2⟩))
          · have hstat : r.get_status m = "complete" := by
              unfold RelationshipState.get_status
              rw [hf]
              simp [hg]
              rw [ht]
              simp [hg2]
            rw [hstat]
            constructor
            · intro h
              exact absurd h (by decide)
            · rintro (h | h | ⟨c, hc, hc2⟩ | ⟨c, hc, hc2⟩)
              · exact absurd h (by simp)
              · exact absurd h (by simp)
              · injection hc with hfc
                subst hfc
                exact absurd hc2 hg
              · injection hc with htc
                subst htc
                exact absurd hc2 hg2
  · intro m' hf ht
    unfold RelationshipState.get_status
    rw [hf, ht]

/-- C3 witness: the amended theorem applied at a concrete relationship and
    concept map with a ghost endpoint; the stub characterization follows. -/
theorem relationship_status_consistency_witness :
    probeRel.get_status probeMap = "stub" :=
  (relationship_status_consistency probeRel probeMap).2.1.mpr
    (Or.inr (Or.inr (Or.inl ⟨ghostConcept "a", rfl, Or.inl rfl⟩)))

/-- C4: evaluation of the parser on the declared document of the repository
    test test_relationship_cardinality_validation: the supported values are
    preserved but the unsupported value N:M is stored verbatim instead of
    being normalized to 1:N, contradicting that test and the comment in
    state.py that only 1:1 and 1:N are supported. -/
theorem parse_stores_raw_cardinality :
    ((alookup (parse cardinalityDoc).relationships "customer:places:order").map
        RelationshipState.cardinality = some (some "1:N")) ∧
    ((alookup (parse cardinalityDoc).relationships "customer:has:address").map
        RelationshipState.cardinality = some (some "1:1")) ∧
    ((alookup (parse cardinalityDoc).relationships "order:invalid:address").map
        RelationshipState.cardinality = some (some "N:M")) ∧
    ((alookup (parse cardinalityDoc).relationships "order:invalid:address").map
        RelationshipState.cardinality ≠ some (some "1:N")) := by
  refine ⟨rfl, rfl, rfl, by decide⟩

/-- C10: the git snapshot loader fails with exactly one of three
    distinguishable error kinds, mapped from the three external failure
    conditions in source order, and the kinds never collapse: a missing git
    executable gives GitNotFoundError, a failing rev-parse gives
    NotAGitRepoError, a failing git show gives RefNotFoundError carrying the
    ref, path and stderr, and the three constructors are pairwise distinct;
    when nothing fails the loader returns the parsed base state. -/
theorem git_error_taxonomy (env : GitEnv) (ref path : String) :
    (env.revParse = .fileNotFound →
      loadStateFromGitRef env ref path =
        .error (.gitNotFound "git not found. This command requires git.")) ∧
    (∀ c, env.revParse = .calledProcessError c →
      loadStateFromGitRef env ref path =
        .error (.notAGitRepo "Not a git repository")) ∧
    (env.revParse = .success → env.showCmd.returncode ≠ 0 →
      loadStateFromGitRef env ref path =
        .error (.refNotFound ref path env.showCmd.stderr)) ∧
    (env.revParse = .success → env.showCmd.returncode = 0 →
      loadStateFromGitRef env ref path = .ok (gitBaseState env.showCmd.doc)) ∧
    (∀ e, loadStateFromGitRef env ref path = .error e →
      (∃ m, e = .gitNotFound m) ∨ (∃ m, e = .notAGitRepo m) ∨
      (∃ a b c, e = .refNotFound a b c)) ∧
    (∀ m₁ m₂, GitError.gitNotFound m₁ ≠ GitError.notAGitRepo m₂) ∧
    (∀ m a b c, GitError.gitNotFound m ≠ GitError.refNotFound a b c) ∧
    (∀ m a b c, GitError.notAGitRepo m ≠ GitError.refNotFound a b c) := by
  refine ⟨?_, ?_, ?_, ?_, ?_, ?_, ?_, ?_⟩
  · intro h; simp [loadStateFromGitRef, h]
  · intro c h; simp [loadStateFromGitRef, h]
  · intro h hr; simp [loadStateFromGitRef, h, hr]
  · intro h hr; simp [loadStateFromGitRef, h, hr]
  · intro e he
    cases hrv : env.revParse with
    | fileNotFound =>
        simp [loadStateFromGitRef, hrv] at he
        exact Or.inl ⟨_, he.symm⟩
    | calledProcessError c =>
        simp [loadStateFromGitRef, hrv] at he
        exact Or.inr (Or.inl ⟨_, he.symm⟩)
    | success =>
        by_cases hr : env.showCmd.returncode = 0
        · simp [loadStateFromGitRef, hrv, hr] at he
        · simp [loadStateFromGitRef, hrv, hr] at he
          exact Or.inr (Or.inr ⟨_, _, _, he.symm⟩)
  · intro m₁ m₂ h; cases h
  · intro m a b c h; cases h
  · intro m a b c h; cases h

/-- C10 witness: the taxonomy theorem applied to a concrete environment with
    a missing git executable. -/
theorem git_error_taxonomy_witness :
    loadStateFromGitRef gitMissingEnv "main" "conceptual.yml" =
      .error (.gitNotFound "git not found. This command requires git.") :=
  (git_error_taxonomy gitMissingEnv "main" "conceptual.yml").1 rfl

theorem changedFields_self {α : Type} (fields : α → List (String × FieldVal))
    (v : α) : changedFields fields v v = [] := by
  unfold changedFields
  generalize fields v = l
  induction l with
  | nil => rfl
  | cons x t ih =>
      simp only [List.zip_cons_cons, List.foldr_cons, ih]
      simp

theorem diffMap_self {α : Type} (fields : α → List (String × FieldVal))
    (m : AList α) : diffMap fields m m = [] := by
  unfold diffMap
  have hadded : ∀ k ∈ akeys m,
      (match alookup m k, alookup m k with
        | none, some v =>
            some { key := k, change_type := "added", new_value := some v,
                   old_value := none, modified_fields := [] }
        | _, _ => (none : Option (Change α))) = none := by
    intro k hk
    obtain ⟨v, hv⟩ := Option.isSome_iff_exists.mp (alookup_isSome_of_mem_keys m k hk)
    simp [hv]
  have hremoved : ∀ k ∈ akeys m,
      (match alookup m k, alookup m k with
        | none, some v =>
            some { key := k, change_type := "removed", old_value := some v,
                   new_value := none, modified_fields := [] }
        | _, _ => (none : Option (Change α))) = none := by
    intro k hk
    obtain ⟨v, hv⟩ := Option.isSome_iff_exists.mp (alookup_isSome_of_mem_keys m k hk)
    simp [hv]
  have hmodified : ∀ k ∈ akeys m,
      (match alookup m k, alookup m k with
        | some b, some c =>
            let mf := changedFields fields b c
            if mf.isEmpty then none
            else some { key := k, change_type := "modified", old_value := some b,
                        new_value := some c, modified_fields := mf }
        | _, _ => (none : Option (Change α))) = none := by
    intro k hk
    obtain ⟨v, hv⟩ := Option.isSome_iff_exists.mp (alookup_isSome_of_mem_keys m k hk)
    simp [hv, changedFields_self]
  simp only [List.append_eq_nil]
  exact ⟨⟨List.filterMap_eq_nil_iff.mpr hadded,
    List.filterMap_eq_nil_iff.mpr hremoved⟩,
    List.filterMap_eq_nil_iff.mpr hmodified⟩

/-- C8: diffing a snapshot against itself yields the empty change set with
    has_changes false, and has_changes is computed from the three change
    lists, true exactly when one of them is nonempty. -/
theorem diff_identity (A : ProjectState) :
    computeDiff A A = ({} : ConceptualDiff) ∧
    (computeDiff A A).has_changes = false ∧
    (∀ d : ConceptualDiff, d.has_changes = true ↔
      (d.domain_changes ≠ [] ∨ d.concept_changes ≠ [] ∨
       d.relationship_changes ≠ [])) := by
  have h1 : computeDiff A A = ({} : ConceptualDiff) := by
    unfold computeDiff
    simp [diffMap_self]
  refine ⟨h1, by rw [h1]; rfl, ?_⟩
  intro d
  simp [ConceptualDiff.has_changes, List.isEmpty_iff]
  tauto

/-- C8 witness: the identity theorem applied at a concrete snapshot. -/
theorem diff_identity_witness :
    computeDiff scenarioState scenarioState = ({} : ConceptualDiff) :=
  (diff_identity scenarioState).1

theorem mem_ite_singleton {α : Type} (c : Prop) [Decidable c] (x i : α)
    (h : i ∈ if c then [x] else []) : i = x := by
  split at h
  · simpa using h
  · simp at h

theorem endpoints_code (state : ProjectState) :
    ∀ i ∈ validateRelationshipEndpoints state, i.code = "E002" := by
  intro i hi
  unfold validateRelationshipEndpoints at hi
  rw [List.mem_flatMap] at hi
  obtain ⟨p, _, hmem⟩ := hi
  rcases List.mem_append.mp hmem with h | h
  · rw [mem_ite_singleton _ _ _ h]
  · rw [mem_ite_singleton _ _ _ h]

theorem unimplemented_code (cfg : ValidationConfig) (state : ProjectState) :
    ∀ i ∈ validateUnimplementedConcepts cfg state, i.code = "W102" := by
  intro i hi
  unfold validateUnimplementedConcepts at hi
  rcases hsev : ruleToSeverity (cfg.get_severity "unimplemented_concepts" (some "gold"))
    with _ | sev
  · rw [hsev] at hi
    simp at hi
  · rw [hsev] at hi
    simp only at hi
    rw [List.mem_flatMap] at hi
    obtain ⟨p, _, hmem⟩ := hi
    split at hmem
    · simp at hmem
    · split at hmem
      · simp at hmem
        subst hmem
        rfl
      · simp at hmem

theorem missing_definitions_code (cfg : ValidationConfig)
    (state : ProjectState) :
    ∀ i ∈ validateMissingDefinitions cfg state, i.code = "W104" := by
  intro i hi
  unfold validateMissingDefinitions at hi
  rcases hsev : ruleToSeverity (cfg.get_severity "missing_definitions" (some "gold"))
    with _ | sev
  · rw [hsev] at hi
    simp at hi
  · rw [hsev] at hi
    simp only at hi
    rcases List.mem_append.mp hi with h | h
    · rw [List.mem_flatMap] at h
      obtain ⟨p, _, hmem⟩ := h
      split at hmem
      · simp at hmem
      · split at hmem
        · simp at hmem
          subst hmem
          rfl
        · simp at hmem
    · rw [List.mem_flatMap] at h
      obtain ⟨p, _, hmem⟩ := h
      split at hmem
      · simp at hmem
        subst hmem
        rfl
      · simp at hmem

theorem domain_references_code (state : ProjectState) :
    ∀ i ∈ validateDomainReferences state, i.code = "W001" := by
  intro i hi
  unfold validateDomainReferences at hi
  rw [List.mem_flatMap] at hi
  obtain ⟨p, _, hmem⟩ := hi
  split at hmem
  split at hmem
  · simp at hmem
    obtain ⟨-, rfl⟩ := hmem
    rfl
  · simp at hmem

theorem stub_checks_code (state : ProjectState) (nd : Bool) :
    ∀ i ∈ checkStubConcepts state nd,
      i.code = "E201" ∨ i.code = "I001" ∨ i.code = "E202" ∨ i.code = "I002" := by
  intro i hi
  unfold checkStubConcepts at hi
  rcases List.mem_append.mp hi with h | h
  · rw [List.mem_flatMap] at h
    obtain ⟨p, _, hmem⟩ := h
    split at hmem
    simp at hmem
    obtain ⟨-, -, -, rfl⟩ := hmem
    cases nd <;> simp
  · rw [List.mem_flatMap] at h
    obtain ⟨p, _, hmem⟩ := h
    split at hmem
    simp at hmem
    obtain ⟨-, rfl⟩ := hmem
    cases nd <;> simp

theorem w101_only_orphans (cfg : ValidationConfig) (state : ProjectState)
    (nd : Bool) :
    (validate cfg state nd).countP (fun i => i.code == "W101") =
      (validateOrphanModels cfg state).countP (fun i => i.code == "W101") := by
  unfold validate
  repeat rw [List.countP_append]
  have h1 : (validateRelationshipEndpoints state).countP
      (fun i => i.code == "W101") = 0 :=
    List.countP_eq_zero.mpr (fun i hi => by simp [endpoints_code state i hi])
  have h2 : (validateUnimplementedConcepts cfg state).countP
      (fun i => i.code == "W101") = 0 :=
    List.countP_eq_zero.mpr (fun i hi => by simp [unimplemented_code cfg state i hi])
  have h3 : (validateMissingDefinitions cfg state).countP
      (fun i => i.code == "W101") = 0 :=
    List.countP_eq_zero.mpr (fun i hi => by
      simp [missing_definitions_code cfg state i hi])
  have h4 : (validateDomainReferences state).countP
      (fun i => i.code == "W101") = 0 :=
    List.countP_eq_zero.mpr (fun i hi => by simp [domain_references_code state i hi])
  have h5 : (checkStubConcepts state nd).countP
      (fun i => i.code == "W101") = 0 :=
    List.countP_eq_zero.mpr (fun i hi => by
      rcases stub_checks_code state nd i hi with h | h | h | h <;> simp [h])
  omega

/-- C9: the rule-based validator returns findings as data and is total; with
    the default configuration the orphan-model rule has severity warn, and
    validate yields exactly one W101 issue per orphan model, every W101
    issue carrying warning severity; with the rule configured to ignore, no
    W101 issue is produced at all. -/
theorem orphan_rule_findings (state : ProjectState) :
    ((validate {} state false).countP (fun i => i.code == "W101") =
      state.orphan_models.length) ∧
    (∀ i ∈ validate {} state false, i.code = "W101" → i.severity = .warning) ∧
    ((validate { orphan_models := .ignore } state false).countP
      (fun i => i.code == "W101") = 0) := by
  have horph : validateOrphanModels {} state =
      state.orphan_models.map (fun o =>
        { severity := .warning
          code := "W101"
          message := "Model " ++ o.name ++ " is not linked to any concept"
          context := [("model", .str o.name), ("path", .optStr o.path)] }) := rfl
  refine ⟨?_, ?_, ?_⟩
  · rw [w101_only_orphans, horph, List.countP_map]
    exact List.countP_eq_length.mpr (fun o _ => rfl)
  · intro i hi hcode
    unfold validate at hi
    rcases List.mem_append.mp hi with h | h
    rotate_left
    · rcases stub_checks_code state false i h with hc | hc | hc | hc <;>
        simp [hc] at hcode
    rcases List.mem_append.mp h with h | h
    rotate_left
    · simp [domain_references_code state i h] at hcode
    rcases List.mem_append.mp h with h | h
    rotate_left
    · simp [missing_definitions_code {} state i h] at hcode
    rcases List.mem_append.mp h with h | h
    rotate_left
    · simp [unimplemented_code {} state i h] at hcode
    rcases List.mem_append.mp h with h | h
    · simp [endpoints_code state i h] at hcode
    · rw [horph] at h
      obtain ⟨o, _, rfl⟩ := List.mem_map.mp h
      rfl
  · rw [w101_only_orphans]
    have : validateOrphanModels { orphan_models := .ignore } state = [] := rfl
    rw [this]
    rfl

/-- C9 witness: the orphan-rule theorem applied at a state with exactly one
    orphan model. -/
theorem orphan_rule_findings_witness :
    (validate {} orphanState false).countP (fun i => i.code == "W101") = 1 := by
  have h := (orphan_rule_findings orphanState).1
  simpa using h

theorem processRelGhost_severities (c : AList ConceptState) (n : Nat)
    (rid : String) (rel : RelationshipState) :
    ∀ m ∈ (processRelGhost c n rid rel).msgs,
      m.severity = "error" ∨ m.severity = "warning" := by
  intro m hm
  unfold processRelGhost at hm
  by_cases hf : acontains c rel.from_concept <;>
    by_cases ht : acontains c rel.to_concept <;>
      simp [hf, ht, mkMsg] at hm
  · rcases hm with rfl | rfl
    · left; rfl
    · right; rfl
  · rcases hm with rfl | rfl
    · left; rfl
    · right; rfl
  · rcases hm with rfl | rfl | rfl | rfl
    · left; rfl
    · right; rfl
    · left; rfl
    · right; rfl

theorem ghostPass_severities (c : AList ConceptState) (n : Nat)
    (rels : AList RelationshipState) :
    ∀ m ∈ (ghostPass c n rels).msgs,
      m.severity = "error" ∨ m.severity = "warning" := by
  induction rels generalizing c n with
  | nil => intro m hm; simp [ghostPass] at hm
  | cons hd tl ih =>
      obtain ⟨rid, rel⟩ := hd
      intro m hm
      simp only [ghostPass] at hm
      rcases List.mem_append.mp hm with h | h
      · exact processRelGhost_severities _ _ _ _ m h
      · exact ih _ _ m h

theorem dupNamesPass_severities (m : AList ConceptState) (seen : AList String)
    (n : Nat) (ks : List String) :
    ∀ msg ∈ (dupNamesPass m seen n ks).msgs, msg.severity = "error" := by
  induction ks generalizing m seen n with
  | nil => intro msg h; simp [dupNamesPass] at h
  | cons k rest ih =>
      intro msg h
      rcases hk : alookup m k with _ | c
      · simp only [dupNamesPass, hk] at h
        exact ih _ _ _ msg h
      · simp only [dupNamesPass, hk] at h
        by_cases hg : c.is_ghost = true
        · simp only [hg, if_true] at h
          exact ih _ _ _ msg h
        · simp only [hg, if_false] at h
          rcases hs : alookup seen c.name with _ | first_id
          · simp only [hs] at h
            exact ih _ _ _ msg h
          · simp only [hs] at h
            rcases List.mem_cons.mp h with rfl | h
            · rfl
            · exact ih _ _ _ msg h

theorem dupRelsPass_severities (rels : AList RelationshipState)
    (seen : AList String) (n : Nat) (ks : List String) :
    ∀ msg ∈ (dupRelsPass rels seen n ks).msgs, msg.severity = "error" := by
  induction ks generalizing rels seen n with
  | nil => intro msg h; simp [dupRelsPass] at h
  | cons k rest ih =>
      intro msg h
      rcases hk : alookup rels k with _ | rel
      · simp only [dupRelsPass, hk] at h
        exact ih _ _ _ msg h
      · simp only [dupRelsPass, hk] at h
        rcases hs : alookup seen
            (rel.from_concept ++ ":" ++ rel.verb ++ ":" ++ rel.to_concept)
          with _ | first_id
        · simp only [hs] at h
          exact ih _ _ _ msg h
        · simp only [hs] at h
          by_cases hne : first_id ≠ k
          · rw [if_pos hne] at h
            rcases List.mem_cons.mp h with rfl | h
            · rfl
            · exact ih _ _ _ msg h
          · rw [if_neg hne] at h
            exact ih _ _ _ msg h

theorem missingModelMsgs_severities (k : String) (n : Nat) (l : List String) :
    ∀ m ∈ missingModelMsgs k n l, m.severity = "warning" := by
  induction l generalizing n with
  | nil => intro m h; simp [missingModelMsgs] at h
  | cons x rest ih =>
      intro m h
      rw [missingModelMsgs] at h
      rcases List.mem_cons.mp h with rfl | h
      · rfl
      · exact ih _ m h

theorem modelsCheckPass_severities (m : AList ConceptState)
    (available : List String) (n : Nat) (ks : List String) :
    ∀ msg ∈ (modelsCheckPass m available n ks).msgs, msg.severity = "warning" := by
  induction ks generalizing m n with
  | nil => intro msg h; simp [modelsCheckPass] at h
  | cons k rest ih =>
      intro msg h
      rcases hk : alookup m k with _ | c
      · simp only [modelsCheckPass, hk] at h
        exact ih _ _ msg h
      · simp only [modelsCheckPass, hk] at h
        by_cases hg : c.is_ghost = true
        · rw [if_pos hg] at h
          exact ih _ _ msg h
        · rw [if_neg hg] at h
          rcases List.mem_append.mp h with h | h
          · exact missingModelMsgs_severities _ _ _ msg h
          · exact ih _ _ msg h

theorem emptyDomainMsgs_severities (concepts : AList ConceptState) (n : Nat)
    (ds : List String) :
    ∀ m ∈ (emptyDomainMsgs concepts n ds).1, m.severity = "warning" := by
  induction ds generalizing n with
  | nil => intro m h; simp [emptyDomainMsgs] at h
  | cons d rest ih =>
      intro m h
      rw [emptyDomainMsgs] at h
      by_cases hc : domainConceptCount concepts d = 0
      · simp only [hc, if_true] at h
        rcases List.mem_cons.mp h with rfl | h
        · rfl
        · exact ih _ m h
      · simp only [hc, if_false] at h
        exact ih _ m h

theorem count_three_severities (msgs : List Message)
    (h : ∀ m ∈ msgs,
      m.severity = "error" ∨ m.severity = "warning" ∨ m.severity = "info") :
    severityCount msgs "error" + severityCount msgs "warning" +
      severityCount msgs "info" = msgs.length := by
  induction msgs with
  | nil => rfl
  | cons m t ih =>
      have ht := ih (fun x hx => h x (List.mem_cons_of_mem m hx))
      unfold severityCount at *
      rcases h m (List.mem_cons_self m t) with hs | hs | hs <;>
        simp [List.countP_cons, hs] <;> omega

theorem validateAndSync_severities (state : ProjectState)
    (avail : List String) :
    ∀ m ∈ (validateAndSync state avail).2.messages,
      m.severity = "error" ∨ m.severity = "warning" ∨ m.severity = "info" := by
  intro m hm
  simp only [validateAndSync] at hm
  rcases List.mem_append.mp hm with h | h
  rotate_left
  · rcases List.mem_cons.mp h with rfl | h
    · right; right; rfl
    · simp at h
  rcases List.mem_append.mp h with h | h
  rotate_left
  · right; left
    exact emptyDomainMsgs_severities _ _ _ m h
  rcases List.mem_append.mp h with h | h
  rotate_left
  · right; left
    exact modelsCheckPass_severities _ _ _ _ m h
  rcases List.mem_append.mp h with h | h
  rotate_left
  · left
    exact dupRelsPass_severities _ _ _ _ m h
  rcases List.mem_append.mp h with h | h
  · rcases ghostPass_severities _ _ _ m h with hs | hs
    · left; exact hs
    · right; left; exact hs
  · left
    exact dupNamesPass_severities _ _ _ _ m h

theorem realizeOne_fields (n : String) (st : ProjectState) (r : String) :
    (realizeOne n st r).concepts = st.concepts ∧
    (realizeOne n st r).orphan_models = st.orphan_models := by
  unfold realizeOne
  split
  · split
    · exact ⟨rfl, rfl⟩
    · exact ⟨rfl, rfl⟩
  · exact ⟨rfl, rfl⟩

theorem realizeFold_fields (n : String) (l : List String) (st : ProjectState) :
    (l.foldl (realizeOne n) st).concepts = st.concepts ∧
    (l.foldl (realizeOne n) st).orphan_models = st.orphan_models := by
  induction l generalizing st with
  | nil => exact ⟨rfl, rfl⟩
  | cons x t ih =>
      simp only [List.foldl_cons]
      have h1 := realizeOne_fields n st x
      have h2 := ih (realizeOne n st x)
      exact ⟨h2.1.trans h1.1, h2.2.trans h1.2⟩

theorem realizeStep_fields (s : ProjectState) (m : ModelDoc) :
    (realizeStep s m).concepts = s.concepts ∧
    (realizeStep s m).orphan_models = s.orphan_models := by
  unfold realizeStep
  split
  · exact realizeFold_fields _ _ _
  · exact ⟨rfl, rfl⟩

theorem linkStep_orphans (s : ProjectState) (m : ModelDoc) :
    (linkStep s m).orphan_models = s.orphan_models := by
  unfold linkStep
  split
  · split
    · split
      · rfl
      · split <;> rfl
    · rfl
  · rfl

theorem orphanStep_concepts (s : ProjectState) (m : ModelDoc) :
    (orphanStep s m).concepts = s.concepts := by
  unfold orphanStep
  split <;> rfl

theorem orphanStep_orphans (s : ProjectState) (m : ModelDoc) :
    (orphanStep s m).orphan_models =
      if isOrphanRecord m then s.orphan_models ++ [orphanOf m]
      else s.orphan_models := by
  unfold orphanStep
  split <;> rfl

theorem modelInfoStep_fields (s : ProjectState) (m : ModelDoc) :
    (modelInfoStep s m).concepts = s.concepts ∧
    (modelInfoStep s m).orphan_models = s.orphan_models := by
  unfold modelInfoStep
  split <;> exact ⟨rfl, rfl⟩

theorem processModel_concepts (s : ProjectState) (m : ModelDoc) :
    (processModel s m).concepts = (linkStep s m).concepts := by
  unfold processModel
  rw [(modelInfoStep_fields _ _).1, orphanStep_concepts,
    (realizeStep_fields _ _).1]

theorem processModel_orphans (s : ProjectState) (m : ModelDoc) :
    (processModel s m).orphan_models =
      if isOrphanRecord m then s.orphan_models ++ [orphanOf m]
      else s.orphan_models := by
  unfold processModel
  rw [(modelInfoStep_fields _ _).2, orphanStep_orphans,
    (realizeStep_fields _ _).2, linkStep_orphans]

/-- C7 counterexample: a bronze-layer record whose concept link names the
    declared concept c is linked nowhere (the claim says the model name is
    appended to the linked-model list), and a silver-layer record with only a
    realizes meta key, hence no concept link, is not appended to the orphan
    list (the claim says an absent link field makes the record an orphan). -/
theorem reconciler_claim_counterexample :
    bronzeLinkedModel.meta_concept = some "c" ∧
    acontains oneConceptState.concepts "c" = true ∧
    (processModel oneConceptState bronzeLinkedModel).concepts =
      oneConceptState.concepts ∧
    ((alookup (processModel oneConceptState bronzeLinkedModel).concepts "c").map
      (fun c => (c.silver_models, c.gold_models, c.models)) = some ([], [], [])) ∧
    realizesOnlyModel.meta_concept = none ∧
    (processModel oneConceptState realizesOnlyModel).orphan_models = [] :=
  ⟨rfl, rfl, rfl, rfl, rfl, rfl⟩

/-- C7 (amended): per discovered record, the reconciler links a record whose
    concept link resolves to a known key into that concept's silver or gold
    list according to the record layer, deduplicated, and leaves the state
    untouched for any other layer; a record is appended to the orphan list
    exactly when both the concept and realizes meta keys are absent and the
    layer is silver or gold; a record whose link names an unknown concept key
    changes neither the concept map nor the orphan list, and no error is
    raised at this stage. -/
theorem reconciler_classification (s : ProjectState) (m : ModelDoc) :
    ((processModel s m).concepts = (linkStep s m).concepts) ∧
    (∀ cid c, m.meta_concept = some cid → alookup s.concepts cid = some c →
      (m.layer = "silver" →
        ∃ c', alookup (processModel s m).concepts cid = some c' ∧
          c'.silver_models = (if c.silver_models.contains m.name
            then c.silver_models else c.silver_models ++ [m.name]) ∧
          c'.gold_models = c.gold_models) ∧
      (m.layer = "gold" →
        ∃ c', alookup (processModel s m).concepts cid = some c' ∧
          c'.gold_models = (if c.gold_models.contains m.name
            then c.gold_models else c.gold_models ++ [m.name]) ∧
          c'.silver_models = c.silver_models) ∧
      (m.layer ≠ "silver" → m.layer ≠ "gold" →
        (processModel s m).concepts = s.concepts)) ∧
    (∀ cid, m.meta_concept = some cid → alookup s.concepts cid = none →
      (processModel s m).concepts = s.concepts ∧
      (processModel s m).orphan_models = s.orphan_models) ∧
    ((processModel s m).orphan_models =
      if isOrphanRecord m then s.orphan_models ++ [orphanOf m]
      else s.orphan_models) ∧
    (isOrphanRecord m = true ↔
      (m.meta_concept = none ∧ m.meta_realizes = none ∧
        (m.layer = "silver" ∨ m.layer = "gold"))) := by
  refine ⟨processModel_concepts s m, ?_, ?_, processModel_orphans s m, ?_⟩
  · intro cid c hm hc
    refine ⟨?_, ?_, ?_⟩
    · intro hl
      rw [processModel_concepts]
      unfold linkStep
      rw [hm]
      simp only [hc]
      by_cases hcon : c.silver_models.contains m.name = true
      · have hcond : ¬ (m.layer = "silver" ∧ ¬ c.silver_models.contains m.name) :=
          fun hand => absurd hcon hand.2
        rw [if_neg hcond]
        have hcond2 : ¬ (m.layer = "gold" ∧ ¬ c.gold_models.contains m.name) := by
          simp [hl]
        rw [if_neg hcond2]
        exact ⟨c, hc, by rw [if_pos hcon], rfl⟩
      · have hcond : m.layer = "silver" ∧ ¬ c.silver_models.contains m.name :=
          ⟨hl, hcon⟩
        rw [if_pos hcond]
        refine ⟨{ c with silver_models := c.silver_models ++ [m.name] },
          alookup_aset_self _ _ _, ?_, rfl⟩
        rw [if_neg hcon]
    · intro hl
      rw [processModel_concepts]
      unfold linkStep
      rw [hm]
      simp only [hc]
      have hns : ¬ (m.layer = "silver" ∧ ¬ c.silver_models.contains m.name) := by
        simp [hl]
      rw [if_neg hns]
      by_cases hcon : c.gold_models.contains m.name = true
      · have hcond : ¬ (m.layer = "gold" ∧ ¬ c.gold_models.contains m.name) :=
          fun hand => absurd hcon hand.2
        rw [if_neg hcond]
        exact ⟨c, hc, by rw [if_pos hcon], rfl⟩
      · have hcond : m.layer = "gold" ∧ ¬ c.gold_models.contains m.name :=
          ⟨hl, hcon⟩
        rw [if_pos hcond]
        refine ⟨{ c with gold_models := c.gold_models ++ [m.name] },
          alookup_aset_self _ _ _, ?_, rfl⟩
        rw [if_neg hcon]
    · intro hs hg
      rw [processModel_concepts]
      unfold linkStep
      rw [hm]
      simp only [hc]
      rw [if_neg (by simp [hs]), if_neg (by simp [hg])]
  · intro cid hm hc
    constructor
    · rw [processModel_concepts]
      unfold linkStep
      rw [hm]
      simp only [hc]
    · rw [processModel_orphans]
      have : isOrphanRecord m = false := by
        unfold isOrphanRecord
        rw [hm]
        rfl
      rw [this]
      simp
  · unfold isOrphanRecord
    simp [Option.isNone_iff_eq_none]
    tauto

/-- C7 witness: the classification theorem applied to a silver record whose
    concept link resolves to the declared concept. -/
theorem reconciler_classification_witness :
    ∃ c', alookup (processModel oneConceptState silverLinkedModel).concepts "c" =
        some c' ∧
      c'.silver_models = ["dim_c"] ∧ c'.gold_models = [] := by
  have h := ((reconciler_classification oneConceptState silverLinkedModel).2.1 "c"
    { name := "C" } rfl rfl).1 rfl
  simpa using h

theorem nodup_append_single {α : Type} (l : List α) (a : α) (h : l.Nodup)
    (ha : a ∉ l) : (l ++ [a]).Nodup := by
  rw [List.nodup_append]
  exact ⟨h, List.nodup_singleton a, List.disjoint_singleton.mpr ha⟩

theorem linkStep_nodup (s : ProjectState) (m : ModelDoc)
    (h : ∀ p ∈ s.concepts, p.2.silver_models.Nodup ∧ p.2.gold_models.Nodup) :
    ∀ p ∈ (linkStep s m).concepts,
      p.2.silver_models.Nodup ∧ p.2.gold_models.Nodup := by
  rcases hm : m.meta_concept with _ | cid
  · unfold linkStep
    rw [hm]
    exact h
  · rcases hc : alookup s.concepts cid with _ | c
    · unfold linkStep
      rw [hm]
      simp only [hc]
      exact h
    · have hcnd := h _ (mem_of_alookup _ _ _ hc)
      unfold linkStep
      rw [hm]
      simp only [hc]
      by_cases h1 : m.layer = "silver" ∧ ¬ c.silver_models.contains m.name
      · rw [if_pos h1]
        intro p hp
        rcases mem_aset _ _ _ _ hp with rfl | hp
        · exact ⟨nodup_append_single _ _ hcnd.1 (by simpa using h1.2), hcnd.2⟩
        · exact h _ hp
      · rw [if_neg h1]
        by_cases h2 : m.layer = "gold" ∧ ¬ c.gold_models.contains m.name
        · rw [if_pos h2]
          intro p hp
          rcases mem_aset _ _ _ _ hp with rfl | hp
          · exact ⟨hcnd.1, nodup_append_single _ _ hcnd.2 (by simpa using h2.2)⟩
          · exact h _ hp
        · rw [if_neg h2]
          exact h

theorem buildFold_nodup (ms : List ModelDoc) (s : ProjectState)
    (h : ∀ p ∈ s.concepts, p.2.silver_models.Nodup ∧ p.2.gold_models.Nodup) :
    ∀ p ∈ (ms.foldl processModel s).concepts,
      p.2.silver_models.Nodup ∧ p.2.gold_models.Nodup := by
  induction ms generalizing s with
  | nil => exact h
  | cons m rest ih =>
      simp only [List.foldl_cons]
      refine ih (processModel s m) ?_
      intro p hp
      rw [processModel_concepts] at hp
      exact linkStep_nodup s m h p hp

theorem buildFold_orphans (ms : List ModelDoc) (s : ProjectState) :
    (ms.foldl processModel s).orphan_models =
      s.orphan_models ++ (ms.filter isOrphanRecord).map orphanOf := by
  induction ms generalizing s with
  | nil => simp
  | cons m rest ih =>
      simp only [List.foldl_cons]
      rw [ih (processModel s m), processModel_orphans]
      by_cases ho : isOrphanRecord m = true
      · rw [if_pos ho]
        simp [List.filter_cons, ho]
      · rw [if_neg ho]
        simp only [List.filter_cons]
        rw [if_neg (by simpa using ho)]

/-- C5 counterexample: feeding the same discovered silver record twice makes
    the orphan list hold two identical entries, so the claim that the orphan
    list never contains duplicate entries fails when the discovered-model
    list itself repeats a record. -/
theorem reconcile_claim_counterexample :
    (build {} [plainSilverModel, plainSilverModel]).orphan_models =
      [orphanOf plainSilverModel, orphanOf plainSilverModel] ∧
    ¬ (build {} [plainSilverModel, plainSilverModel]).orphan_models.Nodup := by
  refine ⟨rfl, ?_⟩
  intro hnd
  have h1 : (build {} [plainSilverModel, plainSilverModel]).orphan_models =
      [orphanOf plainSilverModel, orphanOf plainSilverModel] := rfl
  rw [h1, List.nodup_cons] at hnd
  exact hnd.1 (List.mem_singleton.mpr rfl)

/-- C5 (amended): building is a pure function of the declared document and
    the discovered-model list, so two runs over the same inputs yield equal
    states; within one run no concept silver or gold linked-model list
    contains duplicates, and the orphan list is exactly one entry per
    orphan-qualifying record in scan order, hence duplicate-free whenever
    the derived orphan entries of the qualifying records are pairwise
    distinct (a duplicated discovered record duplicates its orphan entry,
    and two distinct records agreeing on every field the orphan record
    keeps collide the same way). -/
theorem reconcile_idempotent (doc : ConceptualDoc) (ms : List ModelDoc) :
    (∀ p ∈ (build doc ms).concepts,
      p.2.silver_models.Nodup ∧ p.2.gold_models.Nodup) ∧
    ((build doc ms).orphan_models = (ms.filter isOrphanRecord).map orphanOf) ∧
    (((ms.filter isOrphanRecord).map orphanOf).Nodup →
      (build doc ms).orphan_models.Nodup) := by
  have hbase : ∀ p ∈ (parse doc).concepts,
      p.2.silver_models.Nodup ∧ p.2.gold_models.Nodup := by
    intro p hp
    unfold parse at hp
    simp only at hp
    obtain ⟨q, _, rfl⟩ := List.mem_map.mp hp
    exact ⟨List.nodup_nil, List.nodup_nil⟩
  have horph : (build doc ms).orphan_models =
      (ms.filter isOrphanRecord).map orphanOf := by
    unfold build
    rw [buildFold_orphans]
    have hz : (parse doc).orphan_models = [] := rfl
    rw [hz]
    simp
  exact ⟨buildFold_nodup ms (parse doc) hbase, horph,
    fun hnd => by rw [horph]; exact hnd⟩

/-- C5 witness: the amended theorem applied to a concrete document and a
    model list with one linked and one orphan record, with the pairwise
    distinctness of the derived orphan entries discharged by computation. -/
theorem reconcile_idempotent_witness :
    ((build witnessDoc [silverLinkedModel, plainSilverModel]).orphan_models =
      ([silverLinkedModel, plainSilverModel].filter isOrphanRecord).map orphanOf) ∧
    (build witnessDoc [silverLinkedModel, plainSilverModel]).orphan_models.Nodup :=
  ⟨(reconcile_idempotent witnessDoc [silverLinkedModel, plainSilverModel]).2.1,
   (reconcile_idempotent witnessDoc [silverLinkedModel, plainSilverModel]).2.2
     (by decide)⟩

/-- C6: after every validate_and_sync call the returned ValidationState has
    each severity count equal to the tally of emitted messages with that
    severity, and the three counts sum to the length of the message list. -/
theorem message_count_consistency (state : ProjectState) (avail : List String) :
    ((validateAndSync state avail).2.error_count =
      severityCount (validateAndSync state avail).2.messages "error") ∧
    ((validateAndSync state avail).2.warning_count =
      severityCount (validateAndSync state avail).2.messages "warning") ∧
    ((validateAndSync state avail).2.info_count =
      severityCount (validateAndSync state avail).2.messages "info") ∧
    ((validateAndSync state avail).2.error_count +
      (validateAndSync state avail).2.warning_count +
      (validateAndSync state avail).2.info_count =
      (validateAndSync state avail).2.messages.length) :=
  ⟨rfl, rfl, rfl,
    count_three_severities _ (validateAndSync_severities state avail)⟩

theorem processRelGhost_rel_endpoints (c : AList ConceptState) (n : Nat)
    (rid : String) (rel : RelationshipState) :
    (processRelGhost c n rid rel).rel.from_concept = rel.from_concept ∧
    (processRelGhost c n rid rel).rel.to_concept = rel.to_concept := by
  unfold processRelGhost
  by_cases hf : acontains c rel.from_concept = true <;>
    by_cases ht : acontains c rel.to_concept = true <;>
      simp [hf, ht]

theorem processRelGhost_concepts_eq (c : AList ConceptState) (n : Nat)
    (rid : String) (rel : RelationshipState) :
    (processRelGhost c n rid rel).concepts = ghostThread c rel := by
  by_cases hf : acontains c rel.from_concept = true <;>
    by_cases ht : acontains c rel.to_concept = true <;>
      simp [processRelGhost, ghostThread, hf, ht]

theorem processRelGhost_msgs_proj (c : AList ConceptState) (n : Nat)
    (rid : String) (rel : RelationshipState) :
    (processRelGhost c n rid rel).msgs.map
        (fun m => (m.severity, m.element_type, m.element_id)) =
      ((if ¬ acontains c rel.from_concept then [(rid, rel.from_concept)] else []) ++
       (if ¬ acontains c rel.to_concept then [(rid, rel.to_concept)] else [])).flatMap
        (fun s => [("error", some "relationship", some s.1),
                   ("warning", some "concept", some s.2)]) := by
  by_cases hf : acontains c rel.from_concept = true <;>
    by_cases ht : acontains c rel.to_concept = true <;>
      simp [processRelGhost, mkMsg, hf, ht]

theorem processRelGhost_lookup_stable (c : AList ConceptState) (n : Nat)
    (rid : String) (rel : RelationshipState) (k : String) (v : ConceptState)
    (hv : alookup c k = some v) :
    alookup (processRelGhost c n rid rel).concepts k = some v := by
  have hk : acontains c k = true := by simp [acontains, hv]
  rw [processRelGhost_concepts_eq]
  simp only [ghostThread]
  by_cases hf : acontains c rel.from_concept = true
  · by_cases ht : acontains c rel.to_concept = true
    · rw [if_neg (by simpa using ht), if_neg (by simpa using hf)]
      exact hv
    · rw [if_pos (by simpa using ht)]
      rw [alookup_aset_ne _ _ _ _ (fun he => ht (by rw [he]; exact hk))]
      rw [if_neg (by simpa using hf)]
      exact hv
  · by_cases ht : acontains c rel.to_concept = true
    · rw [if_neg (by simpa using ht), if_pos (by simpa using hf)]
      rw [alookup_aset_ne _ _ _ _ (fun he => hf (by rw [he]; exact hk))]
      exact hv
    · rw [if_pos (by simpa using ht)]
      rw [alookup_aset_ne _ _ _ _ (fun he => ht (by rw [he]; exact hk))]
      rw [if_pos (by simpa using hf)]
      rw [alookup_aset_ne _ _ _ _ (fun he => hf (by rw [he]; exact hk))]
      exact hv

theorem processRelGhost_endpoints_present (c : AList ConceptState) (n : Nat)
    (rid : String) (rel : RelationshipState) :
    acontains (processRelGhost c n rid rel).concepts rel.from_concept = true ∧
    acontains (processRelGhost c n rid rel).concepts rel.to_concept = true := by
  rw [processRelGhost_concepts_eq]
  simp only [ghostThread]
  by_cases hf : acontains c rel.from_concept = true <;>
    by_cases ht : acontains c rel.to_concept = true <;>
      simp [hf, ht, acontains_aset]

theorem processRelGhost_ghost_from (c : AList ConceptState) (n : Nat)
    (rid : String) (rel : RelationshipState)
    (hf : ¬ acontains c rel.from_concept = true) :
    alookup (processRelGhost c n rid rel).concepts rel.from_concept =
      some (ghostConcept rel.from_concept) := by
  rw [processRelGhost_concepts_eq]
  simp only [ghostThread]
  by_cases ht : acontains c rel.to_concept = true
  · rw [if_neg (by simpa using ht), if_pos (by simpa using hf)]
    exact alookup_aset_self _ _ _
  · rw [if_pos (by simpa using ht)]
    by_cases he : rel.to_concept = rel.from_concept
    · rw [he]
      exact alookup_aset_self _ _ _
    · rw [alookup_aset_ne _ _ _ _ he, if_pos (by simpa using hf)]
      exact alookup_aset_self _ _ _

theorem processRelGhost_ghost_to (c : AList ConceptState) (n : Nat)
    (rid : String) (rel : RelationshipState)
    (ht : ¬ acontains c rel.to_concept = true) :
    alookup (processRelGhost c n rid rel).concepts rel.to_concept =
      some (ghostConcept rel.to_concept) := by
  rw [processRelGhost_concepts_eq]
  simp only [ghostThread]
  rw [if_pos (by simpa using ht)]
  exact alookup_aset_self _ _ _

theorem processRelGhost_marks_error (c : AList ConceptState) (n : Nat)
    (rid : String) (rel : RelationshipState)
    (h : acontains c rel.from_concept = false ∨
      acontains c rel.to_concept = false) :
    (processRelGhost c n rid rel).rel.validation_status = "error" := by
  unfold processRelGhost
  rcases h with h | h
  · by_cases ht : acontains c rel.to_concept = true <;> simp [h, ht]
  · by_cases hf : acontains c rel.from_concept = true <;> simp [h, hf]

theorem ghostThread_mono (c : AList ConceptState) (rel : RelationshipState)
    (x : String) (h : acontains c x = true) :
    acontains (ghostThread c rel) x = true := by
  unfold ghostThread
  by_cases hf : acontains c rel.from_concept = true <;>
    by_cases ht : acontains c rel.to_concept = true <;>
      simp [hf, ht, acontains_aset, h]

theorem ghostThread_not_contains (c : AList ConceptState)
    (rel : RelationshipState) (k : String) (h : acontains c k = false)
    (h1 : rel.from_concept ≠ k) (h2 : rel.to_concept ≠ k) :
    acontains (ghostThread c rel) k = false := by
  unfold ghostThread
  by_cases hf : acontains c rel.from_concept = true <;>
    by_cases ht : acontains c rel.to_concept = true <;>
      simp [hf, ht, acontains_aset, h, h1, h2]

theorem ghostThread_contains_from (c : AList ConceptState)
    (rel : RelationshipState) :
    acontains (ghostThread c rel) rel.from_concept = true := by
  unfold ghostThread
  by_cases hf : acontains c rel.from_concept = true <;>
    by_cases ht : acontains c rel.to_concept = true <;>
      simp [hf, ht, acontains_aset]

theorem ghostThread_contains_to (c : AList ConceptState)
    (rel : RelationshipState) :
    acontains (ghostThread c rel) rel.to_concept = true := by
  unfold ghostThread
  by_cases hf : acontains c rel.from_concept = true <;>
    by_cases ht : acontains c rel.to_concept = true <;>
      simp [hf, ht, acontains_aset]

theorem ghostPass_msgs_proj (c : AList ConceptState) (n : Nat)
    (rels : AList RelationshipState) :
    (ghostPass c n rels).msgs.map
        (fun m => (m.severity, m.element_type, m.element_id)) =
      (ghostSlots c rels).flatMap
        (fun s => [("error", some "relationship", some s.1),
                   ("warning", some "concept", some s.2)]) := by
  induction rels generalizing c n with
  | nil => simp [ghostPass, ghostSlots]
  | cons hd tl ih =>
      obtain ⟨rid, rel⟩ := hd
      simp only [ghostPass, ghostSlots]
      rw [List.map_append, List.flatMap_append]
      congr 1
      · exact processRelGhost_msgs_proj c n rid rel
      · rw [ih]
        rw [processRelGhost_concepts_eq]

theorem ghostPass_lookup_stable (c : AList ConceptState) (n : Nat)
    (rels : AList RelationshipState) (k : String) (v : ConceptState)
    (hv : alookup c k = some v) :
    alookup (ghostPass c n rels).concepts k = some v := by
  induction rels generalizing c n with
  | nil => simpa [ghostPass] using hv
  | cons hd tl ih =>
      obtain ⟨rid, rel⟩ := hd
      simp only [ghostPass]
      exact ih _ _ (processRelGhost_lookup_stable _ _ _ _ _ _ hv)

theorem ghostPass_contains_mono (c : AList ConceptState) (n : Nat)
    (rels : AList RelationshipState) (k : String)
    (h : acontains c k = true) :
    acontains (ghostPass c n rels).concepts k = true := by
  obtain ⟨v, hv⟩ := Option.isSome_iff_exists.mp h
  simp [acontains, ghostPass_lookup_stable c n rels k v hv]

theorem ghostPass_rels_endpoints (c : AList ConceptState) (n : Nat)
    (rels : AList RelationshipState) :
    ∀ p ∈ (ghostPass c n rels).rels,
      acontains (ghostPass c n rels).concepts p.2.from_concept = true ∧
      acontains (ghostPass c n rels).concepts p.2.to_concept = true := by
  induction rels generalizing c n with
  | nil => intro p hp; simp [ghostPass] at hp
  | cons hd tl ih =>
      obtain ⟨rid, rel⟩ := hd
      intro p hp
      simp only [ghostPass] at hp ⊢
      rcases List.mem_cons.mp hp with rfl | hp
      · have hep := processRelGhost_rel_endpoints c n rid rel
        have hpre := processRelGhost_endpoints_present c n rid rel
        constructor
        · rw [hep.1]
          exact ghostPass_contains_mono _ _ _ _ hpre.1
        · rw [hep.2]
          exact ghostPass_contains_mono _ _ _ _ hpre.2
      · exact ih _ _ p hp

theorem ghostPass_ghost_binding (c : AList ConceptState) (n : Nat)
    (rels : AList RelationshipState) (k : String)
    (hmiss : acontains c k = false)
    (href : ∃ p ∈ rels, p.2.from_concept = k ∨ p.2.to_concept = k) :
    alookup (ghostPass c n rels).concepts k = some (ghostConcept k) := by
  induction rels generalizing c n with
  | nil =>
      obtain ⟨p, hp, _⟩ := href
      simp at hp
  | cons hd tl ih =>
      obtain ⟨rid, rel⟩ := hd
      simp only [ghostPass]
      by_cases hhead : rel.from_concept = k ∨ rel.to_concept = k
      · have hstep : alookup (processRelGhost c n rid rel).concepts k =
            some (ghostConcept k) := by
          rcases hhead with he | he
          · have hg := processRelGhost_ghost_from c n rid rel
              (by rw [he]; simp [hmiss])
            rw [he] at hg
            exact hg
          · have hg := processRelGhost_ghost_to c n rid rel
              (by rw [he]; simp [hmiss])
            rw [he] at hg
            exact hg
        exact ghostPass_lookup_stable _ _ _ _ _ hstep
      · push_neg at hhead
        have hmiss2 : acontains (processRelGhost c n rid rel).concepts k = false := by
          rw [processRelGhost_concepts_eq]
          exact ghostThread_not_contains c rel k hmiss hhead.1 hhead.2
        have href2 : ∃ p ∈ tl, p.2.from_concept = k ∨ p.2.to_concept = k := by
          obtain ⟨p, hp, hpe⟩ := href
          rcases List.mem_cons.mp hp with rfl | hp
          · exact absurd hpe (by simp [hhead.1, hhead.2])
          · exact ⟨p, hp, hpe⟩
        exact ih _ _ hmiss2 href2

theorem countP_ite_single (b : Prop) [Decidable b] (x : String × String)
    (k : String) :
    ((if b then [x] else []).countP (fun s => s.2 == k)) =
      if b ∧ x.2 = k then 1 else 0 := by
  by_cases hb : b <;> by_cases hx : x.2 = k <;> simp [hb, hx]

theorem ghostSlots_count (c : AList ConceptState)
    (rels : AList RelationshipState) (k : String)
    (hsl : ∀ p ∈ rels, p.2.from_concept = p.2.to_concept →
      acontains c p.2.from_concept = true) :
    (ghostSlots c rels).countP (fun s => s.2 == k) =
      (if acontains c k = true then 0
       else if rels.any (fun p => p.2.from_concept == k || p.2.to_concept == k)
       then 1 else 0) := by
  induction rels generalizing c with
  | nil => simp [ghostSlots]
  | cons hd tl ih =>
      obtain ⟨rid, rel⟩ := hd
      have hsl_tl : ∀ p ∈ tl, p.2.from_concept = p.2.to_concept →
          acontains (ghostThread c rel) p.2.from_concept = true :=
        fun p hp he => ghostThread_mono c rel _ (hsl p (List.mem_cons_of_mem _ hp) he)
      simp only [ghostSlots]
      rw [List.countP_append, List.countP_append, countP_ite_single,
        countP_ite_single, ih (ghostThread c rel) hsl_tl]
      by_cases hk : acontains c k = true
      · have hk2 : acontains (ghostThread c rel) k = true :=
          ghostThread_mono c rel k hk
        have h1 : ¬ (¬ acontains c rel.from_concept = true ∧
            (rid, rel.from_concept).2 = k) :=
          fun hand => hand.1 (by rw [show rel.from_concept = k from hand.2]; exact hk)
        have h2 : ¬ (¬ acontains c rel.to_concept = true ∧
            (rid, rel.to_concept).2 = k) :=
          fun hand => hand.1 (by rw [show rel.to_concept = k from hand.2]; exact hk)
        simp [h1, h2, hk, hk2]
        exact ⟨fun hmf he => by rw [he] at hmf; simp [hmf] at hk,
          fun hmf he => by rw [he] at hmf; simp [hmf] at hk⟩
      · have hkf : acontains c k = false := by simpa using hk
        by_cases hfrom : rel.from_concept = k
        · have hfm : ¬ acontains c rel.from_concept = true := by
            rw [hfrom]
            simp [hkf]
          have hto : rel.to_concept ≠ k := by
            intro he
            have heq : rel.from_concept = rel.to_concept := by rw [hfrom, he]
            have hcon := hsl (rid, rel) (List.mem_cons_self _ _) heq
            rw [hfrom] at hcon
            exact hk hcon
          have h2 : ¬ (¬ acontains c rel.to_concept = true ∧
              (rid, rel.to_concept).2 = k) := fun hand => hto hand.2
          have hc2 : acontains (ghostThread c rel) k = true := by
            rw [← hfrom]
            exact ghostThread_contains_from c rel
          have hany : (((rid, rel) :: tl).any
              (fun p => p.2.from_concept == k || p.2.to_concept == k)) = true := by
            simp [hfrom]
          simp [hfm, hfrom, h2, hc2, hk, hany]
          exact fun _ => hto
        · by_cases hto : rel.to_concept = k
          · have h1 : ¬ (¬ acontains c rel.from_concept = true ∧
                (rid, rel.from_concept).2 = k) := fun hand => hfrom hand.2
            have htm : ¬ acontains c rel.to_concept = true := by
              rw [hto]
              simp [hkf]
            have hc2 : acontains (ghostThread c rel) k = true := by
              rw [← hto]
              exact ghostThread_contains_to c rel
            have hany : (((rid, rel) :: tl).any
                (fun p => p.2.from_concept == k || p.2.to_concept == k)) = true := by
              simp [hto]
            simp [h1, htm, hto, hc2, hk, hany]
            exact fun _ => hfrom
          · have h1 : ¬ (¬ acontains c rel.from_concept = true ∧
                (rid, rel.from_concept).2 = k) := fun hand => hfrom hand.2
            have h2 : ¬ (¬ acontains c rel.to_concept = true ∧
                (rid, rel.to_concept).2 = k) := fun hand => hto hand.2
            have hc2 : acontains (ghostThread c rel) k = false :=
              ghostThread_not_contains c rel k hkf hfrom hto
            have hb1 : (rel.from_concept == k) = false := by simp [hfrom]
            have hb2 : (rel.to_concept == k) = false := by simp [hto]
            simp [h1, h2, hc2, hk, hfrom, hto]
            rw [hb1, hb2, Bool.false_or, Bool.false_or]

theorem markConceptDup_preserve (m : AList ConceptState) (k0 dupName k : String)
    (v : ConceptState) (hv : alookup m k = some v) :
    ∃ v', alookup (markConceptDup m k0 dupName) k = some v' ∧
      v'.is_ghost = v.is_ghost ∧
      (v.validation_status = "error" → v'.validation_status = "error") := by
  unfold markConceptDup
  rcases hl : alookup m k0 with _ | c0
  · exact ⟨v, hv, rfl, fun h => h⟩
  · by_cases hk : k0 = k
    · subst hk
      rw [hl] at hv
      injection hv with hv
      subst hv
      exact ⟨_, alookup_aset_self _ _ _, rfl, fun _ => rfl⟩
    · exact ⟨v, by rw [alookup_aset_ne _ _ _ _ hk]; exact hv, rfl, fun h => h⟩

theorem dupNamesPass_preserve (ks : List String) (m : AList ConceptState)
    (seen : AList String) (n : Nat) (k : String) (v : ConceptState)
    (hv : alookup m k = some v) :
    ∃ v', alookup (dupNamesPass m seen n ks).concepts k = some v' ∧
      v'.is_ghost = v.is_ghost ∧
      (v.validation_status = "error" → v'.validation_status = "error") := by
  induction ks generalizing m seen n v with
  | nil => exact ⟨v, hv, rfl, fun h => h⟩
  | cons k0 rest ih =>
      rcases hk0 : alookup m k0 with _ | c
      · simp only [dupNamesPass, hk0]
        exact ih _ _ _ _ hv
      · simp only [dupNamesPass, hk0]
        by_cases hg : c.is_ghost = true
        · rw [if_pos hg]
          exact ih _ _ _ _ hv
        · rw [if_neg hg]
          rcases hs : alookup seen c.name with _ | first_id
          · simp only [hs]
            exact ih _ _ _ _ hv
          · simp only [hs]
            by_cases hkk : k0 = k
            · subst hkk
              rw [hk0] at hv
              injection hv with hv
              subst hv
              obtain ⟨v2, hv2, hg2, he2⟩ := markConceptDup_preserve _ first_id
                _ k0 _ (alookup_aset_self m k0 _)
              obtain ⟨v3, hv3, hg3, he3⟩ := ih _ _ _ _ hv2
              exact ⟨v3, hv3, by rw [hg3, hg2], fun _ => he3 (he2 rfl)⟩
            · have h1 : alookup (aset m k0 { c with
                  validation_status := "error"
                  validation_messages := c.validation_messages ++
                    ["Duplicate name: " ++ c.name] }) k = some v := by
                rw [alookup_aset_ne _ _ _ _ hkk]
                exact hv
              obtain ⟨v2, hv2, hg2, he2⟩ := markConceptDup_preserve _ first_id
                _ k _ h1
              obtain ⟨v3, hv3, hg3, he3⟩ := ih _ _ _ _ hv2
              exact ⟨v3, hv3, by rw [hg3, hg2], fun h => he3 (he2 h)⟩

theorem modelsCheckPass_preserve (ks : List String) (m : AList ConceptState)
    (avail : List String) (n : Nat) (k : String) (v : ConceptState)
    (hv : alookup m k = some v) :
    ∃ v', alookup (modelsCheckPass m avail n ks).concepts k = some v' ∧
      v'.is_ghost = v.is_ghost ∧
      (v.validation_status = "error" → v'.validation_status = "error") := by
  induction ks generalizing m n v with
  | nil => exact ⟨v, hv, rfl, fun h => h⟩
  | cons k0 rest ih =>
      rcases hk0 : alookup m k0 with _ | c
      · simp only [modelsCheckPass, hk0]
        exact ih _ _ _ hv
      · simp only [modelsCheckPass, hk0]
        by_cases hg : c.is_ghost = true
        · rw [if_pos hg]
          exact ih _ _ _ hv
        · rw [if_neg hg]
          by_cases hkk : k0 = k
          · subst hkk
            rw [hk0] at hv
            injection hv with hv
            subst hv
            obtain ⟨v3, hv3, hg3, he3⟩ := ih _ _ _ (alookup_aset_self m k0 _)
            refine ⟨v3, hv3, by rw [hg3], fun hverr => he3 ?_⟩
            simp [hverr]
          · have h1 : alookup (aset m k0 { c with
                validation_status :=
                  if ¬ (missingModelsForConcept c avail).isEmpty ∧
                      c.validation_status = "valid" then "warning"
                  else c.validation_status
                validation_messages := c.validation_messages ++
                  (missingModelsForConcept c avail).map
                    (fun mn => "Model " ++ mn ++ " not found") }) k = some v := by
              rw [alookup_aset_ne _ _ _ _ hkk]
              exact hv
            obtain ⟨v3, hv3, hg3, he3⟩ := ih _ _ _ h1
            exact ⟨v3, hv3, hg3, he3⟩

theorem dupRelsPass_entries (ks : List String) (rels : AList RelationshipState)
    (seen : AList String) (n : Nat) :
    ∀ p ∈ (dupRelsPass rels seen n ks).rels, ∃ q ∈ rels,
      q.2.from_concept = p.2.from_concept ∧ q.2.to_concept = p.2.to_concept := by
  induction ks generalizing rels seen n with
  | nil => intro p hp; exact ⟨p, hp, rfl, rfl⟩
  | cons k0 rest ih =>
      intro p hp
      rcases hk0 : alookup rels k0 with _ | rel
      · simp only [dupRelsPass, hk0] at hp
        exact ih _ _ _ p hp
      · simp only [dupRelsPass, hk0] at hp
        rcases hs : alookup seen
            (rel.from_concept ++ ":" ++ rel.verb ++ ":" ++ rel.to_concept)
          with _ | first_id
        · simp only [hs] at hp
          exact ih _ _ _ p hp
        · simp only [hs] at hp
          by_cases hne : first_id ≠ k0
          · rw [if_pos hne] at hp
            obtain ⟨q, hq, hqf, hqt⟩ := ih _ _ _ p hp
            rcases mem_aset _ _ _ _ hq with rfl | hq2
            · exact ⟨(k0, rel), mem_of_alookup _ _ _ hk0, hqf, hqt⟩
            · exact ⟨q, hq2, hqf, hqt⟩
          · rw [if_neg hne] at hp
            exact ih _ _ _ p hp

/-- C1 counterexample: with a single self-referential relationship on the
    undeclared concept x, the ghost-creation step computes both endpoint
    checks before inserting the ghost, so the one missing endpoint x receives
    two error and two warning messages rather than exactly one of each. -/
theorem ghost_creation_claim_counterexample :
    acontains selfLoopState.concepts "x" = false ∧
    (validateAndSync selfLoopState []).2.messages.countP
      (fun m => m.severity == "warning" && m.element_type == some "concept" &&
        m.element_id == some "x") = 2 ∧
    (validateAndSync selfLoopState []).2.error_count = 2 ∧
    (validateAndSync selfLoopState []).2.warning_count = 2 :=
  ⟨rfl, rfl, rfl, rfl⟩

/-- C1 (amended): after validate_and_sync every relationship endpoint key is
    present in the concept map, and every endpoint missing beforehand maps to
    a synthesized ghost with is_ghost true and validation status error; the
    returned message list begins with the ghost-step messages, which are
    exactly one error for the referencing relationship followed by one
    warning for the ghost per missing-endpoint slot; provided no relationship
    is a self-loop on a missing key, every missing endpoint has exactly one
    slot, hence exactly one error and one warning; and an iteration that
    finds an endpoint missing sets that relationship's validation status to
    error.  The one deviation from the claim: a self-loop on a missing key
    yields two slots for that endpoint, because both endpoint checks read the
    map before the ghost is inserted. -/
theorem ghost_creation_completeness (state : ProjectState) (avail : List String) :
    (∀ p ∈ (validateAndSync state avail).1.relationships,
      acontains (validateAndSync state avail).1.concepts p.2.from_concept = true ∧
      acontains (validateAndSync state avail).1.concepts p.2.to_concept = true) ∧
    (∀ p ∈ state.relationships, ∀ k,
      (k = p.2.from_concept ∨ k = p.2.to_concept) →
      acontains state.concepts k = false →
      ∃ c, alookup (validateAndSync state avail).1.concepts k = some c ∧
        c.is_ghost = true ∧ c.validation_status = "error") ∧
    (∃ rest, (validateAndSync state avail).2.messages =
      (ghostPass state.concepts 0 state.relationships).msgs ++ rest) ∧
    ((ghostPass state.concepts 0 state.relationships).msgs.map
        (fun m => (m.severity, m.element_type, m.element_id)) =
      (ghostSlots state.concepts state.relationships).flatMap
        (fun s => [("error", some "relationship", some s.1),
                   ("warning", some "concept", some s.2)])) ∧
    ((∀ q ∈ state.relationships, q.2.from_concept = q.2.to_concept →
        acontains state.concepts q.2.from_concept = true) →
      ∀ p ∈ state.relationships, ∀ k,
      (k = p.2.from_concept ∨ k = p.2.to_concept) →
      acontains state.concepts k = false →
      (ghostSlots state.concepts state.relationships).countP
        (fun s => s.2 == k) = 1) ∧
    (∀ (c : AList ConceptState) (n : Nat) (rid : String)
        (rel : RelationshipState),
      acontains c rel.from_concept = false ∨
        acontains c rel.to_concept = false →
      (processRelGhost c n rid rel).rel.validation_status = "error") := by
  refine ⟨?_, ?_, ?_, ghostPass_msgs_proj _ _ _, ?_, ?_⟩
  rotate_left 2
  · simp only [validateAndSync, List.append_assoc]
    exact ⟨_, rfl⟩
  rotate_right 2
  · intro p hp
    obtain ⟨q, hq, hqf, hqt⟩ := dupRelsPass_entries _ _ _ _ p hp
    have hqe := ghostPass_rels_endpoints state.concepts 0 state.relationships q hq
    constructor
    · rw [← hqf]
      obtain ⟨v, hv⟩ := Option.isSome_iff_exists.mp hqe.1
      obtain ⟨v2, hv2, -, -⟩ := dupNamesPass_preserve _ _ _ _ _ _ hv
      obtain ⟨v3, hv3, -, -⟩ := modelsCheckPass_preserve _ _ _ _ _ _ hv2
      exact (Option.isSome_iff_exists.mpr ⟨v3, hv3⟩ : _)
    · rw [← hqt]
      obtain ⟨v, hv⟩ := Option.isSome_iff_exists.mp hqe.2
      obtain ⟨v2, hv2, -, -⟩ := dupNamesPass_preserve _ _ _ _ _ _ hv
      obtain ⟨v3, hv3, -, -⟩ := modelsCheckPass_preserve _ _ _ _ _ _ hv2
      exact (Option.isSome_iff_exists.mpr ⟨v3, hv3⟩ : _)
  · intro p hp k hk hmiss
    have href : ∃ q ∈ state.relationships,
        q.2.from_concept = k ∨ q.2.to_concept = k := by
      refine ⟨p, hp, ?_⟩
      rcases hk with rfl | rfl
      · exact Or.inl rfl
      · exact Or.inr rfl
    have hghost := ghostPass_ghost_binding state.concepts 0 state.relationships
      k hmiss href
    obtain ⟨v2, hv2, hg2, he2⟩ := dupNamesPass_preserve _ _ _ _ _ _ hghost
    obtain ⟨v3, hv3, hg3, he3⟩ := modelsCheckPass_preserve _ _ _ _ _ _ hv2
    exact ⟨v3, hv3, by rw [hg3, hg2]; rfl, he3 (he2 rfl)⟩
  · intro hsl p hp k hk hmiss
    rw [ghostSlots_count _ _ _ hsl]
    rw [if_neg (by simp [hmiss])]
    rw [if_pos (List.any_eq_true.mpr ⟨p, hp, by rcases hk with rfl | rfl <;> simp⟩)]
  · exact fun c n rid rel h => processRelGhost_marks_error c n rid rel h

/-- C1 witness: the amended theorem applied to the scenario state of the
    spec, where the relationship customer places order references the
    undeclared concept order; both the ghost-synthesis clause and the
    exactly-one-slot clause are instantiated, the latter with its
    no-self-loop proviso discharged by computation. -/
theorem ghost_creation_completeness_witness :
    (∃ c, alookup ((validateAndSync scenarioState []).1.concepts) "order" =
        some c ∧ c.is_ghost = true ∧ c.validation_status = "error") ∧
    (ghostSlots scenarioState.concepts scenarioState.relationships).countP
      (fun s => s.2 == "order") = 1 :=
  ⟨(ghost_creation_completeness scenarioState []).2.1
    ("customer:places:order",
      { verb := "places", from_concept := "customer", to_concept := "order" })
    (by decide) "order" (Or.inr rfl) (by decide),
   (ghost_creation_completeness scenarioState []).2.2.2.2.1 (by decide)
    ("customer:places:order",
      { verb := "places", from_concept := "customer", to_concept := "order" })
    (by decide) "order" (Or.inr rfl) (by decide)⟩

end DbtConceptual
